import Mathlib

/-!
Shallow embedding of the RogueDev2025 turn-based tile-grid simulation.

Coordinates and combat statistics are Python `int`s and are embedded as `Int`.
The map's numpy grids (`tiles`, `visible`, `explored`) are embedded as
functions `Int → Int → _`; a numpy slice assignment becomes a pointwise
function update.  The global `random` module is embedded as an explicit
stream of naturals (`Rng`) threaded through the generation calls:
`random.randint(lo, hi)` consumes one draw and maps it into `[lo, hi]`,
`random.random()` consumes one draw and exposes it as a percentage in
`[0, 100)`, so the source's `random.random() < 0.5` / `< 0.8` thresholds
become `< 50` / `< 80`.

External collaborators (tcod's `compute_fov`, `tcod.path` pathfinding,
`tcod.los.bresenham`) are not part of the repository; per the spec's §6 they
are capabilities consumed through an interface.  `compute_fov`'s result and
the pathfinder's result are passed in as parameters; `bresenham` is modelled
for the axis-aligned segments that are the only ones `tunnel_between`
produces.
-/

namespace Rogue

/-- Graphic data of a tile (`graphic_dt` in `tile_types.py`): codepoint,
foreground RGB, background RGB. -/
structure Graphic where
  ch : Int
  fg : Int × Int × Int
  bg : Int × Int × Int
deriving DecidableEq, Repr

/-- A map tile (`tile_dt` in `tile_types.py`). -/
structure Tile where
  walkable : Bool
  transparent : Bool
  dark : Graphic
  light : Graphic
deriving DecidableEq, Repr

/-- `tile_types.floor`. -/
def floorTile : Tile :=
  { walkable := true
    transparent := true
    dark := { ch := 32, fg := (255, 255, 255), bg := (50, 50, 150) }
    light := { ch := 32, fg := (255, 255, 255), bg := (200, 180, 50) } }

/-- `tile_types.wall`. -/
def wallTile : Tile :=
  { walkable := false
    transparent := false
    dark := { ch := 32, fg := (255, 255, 255), bg := (0, 0, 100) }
    light := { ch := 32, fg := (255, 255, 255), bg := (130, 110, 50) } }

/-- `render_order.RenderOrder`. -/
inductive RenderOrder where
  | corpse
  | item
  | actor
deriving DecidableEq, Repr

/-- `components/fighter.py`: the combat component.  `hp` is the stored
`_hp` field; the clamping hp setter is `Fighter.set_hp` below. -/
structure Fighter where
  max_hp : Int
  hp : Int
  defense : Int
  power : Int
deriving DecidableEq, Repr

/-- The clamping part of the `hp` setter in `components/fighter.py`:
`self._hp = max(0, min(value, self.max_hp))`.  The death-transition side
effect of the setter lives in `Engine.set_hp`, which needs the whole
engine state. -/
def Fighter.set_hp (f : Fighter) (value : Int) : Fighter :=
  { f with hp := max 0 (min value f.max_hp) }

/-- Mutable state of `components/ai.py`'s `HostileEnemy`: the cached
`self.path`.  An entity's decision policy being attached at all is
`Entity.ai : Option AIState`; `none` is the "dead" marker. -/
structure AIState where
  path : List (Int × Int)
deriving DecidableEq, Repr

/-- `entity.py`'s `Entity` (with the `Actor` specialization folded in as the
optional `fighter` and `ai` components; a plain entity carries `none` for
both).  The `gamemap` back reference is represented by membership in a
`GameMap.entities` list. -/
structure Entity where
  x : Int
  y : Int
  char : String
  color : Int × Int × Int
  name : String
  blocks_movement : Bool
  render_order : RenderOrder
  fighter : Option Fighter
  ai : Option AIState
deriving DecidableEq, Repr

/-- `Entity.move`: move the entity by a given amount. -/
def Entity.move (e : Entity) (dx dy : Int) : Entity :=
  { e with x := e.x + dx, y := e.y + dy }

/-- `Entity.spawn`: a copy of this instance at the given location (the
caller adds it to the map's entity list). -/
def Entity.spawn (e : Entity) (x y : Int) : Entity :=
  { e with x := x, y := y }

/-- `entity_factories.player`. -/
def playerFactory : Entity :=
  { x := 0, y := 0, char := "@", color := (255, 255, 255), name := "Player"
    blocks_movement := true, render_order := RenderOrder.corpse
    fighter := none, ai := none }

/-- `entity_factories.orc`. -/
def orc : Entity :=
  { x := 0, y := 0, char := "R", color := (63, 127, 63), name := "Robot"
    blocks_movement := true, render_order := RenderOrder.corpse
    fighter := none, ai := none }

/-- `entity_factories.troll`. -/
def troll : Entity :=
  { x := 0, y := 0, char := "D", color := (0, 127, 0), name := "Drone"
    blocks_movement := true, render_order := RenderOrder.corpse
    fighter := none, ai := none }

/-- `game_map.py`'s `GameMap`.  The numpy grids are functions of the two
coordinates; `GameMap.init` fills `tiles` with walls and both visibility
grids with `False`. -/
structure GameMap where
  width : Int
  height : Int
  entities : List Entity
  tiles : Int → Int → Tile
  visible : Int → Int → Bool
  explored : Int → Int → Bool

/-- `GameMap.__init__`. -/
def GameMap.init (width height : Int) (entities : List Entity) : GameMap :=
  { width := width, height := height, entities := entities
    tiles := fun _ _ => wallTile
    visible := fun _ _ => false
    explored := fun _ _ => false }

/-- `GameMap.in_bounds`. -/
def GameMap.in_bounds (m : GameMap) (x y : Int) : Bool :=
  decide (0 ≤ x) && decide (x < m.width) && decide (0 ≤ y) && decide (y < m.height)

/-- `GameMap.get_blocking_entity_at_location`. -/
def GameMap.get_blocking_entity_at_location (m : GameMap) (location_x location_y : Int) :
    Option Entity :=
  m.entities.find? fun entity =>
    entity.blocks_movement && entity.x == location_x && entity.y == location_y

/-- Modelled from the spec: `GameMap.get_actor_at_location` is called by
`ActionWithDirection.target_actor` in `actions.py` but is not defined in
`game_map.py` under `src/`.  The spec's MeleeAttack contract reads "looks up
a blocking entity at actor.position+(dx,dy) that has combat stats. No-op if
none found", and its death property notes a corpse "is not even selected"
because `blocks_movement` is false — so the lookup selects an entity that
blocks movement and carries a combat component.  This returns the index of
that entity so callers can write the target back. -/
def GameMap.actor_index_at_location (m : GameMap) (x y : Int) : Option Nat :=
  m.entities.findIdx? fun entity =>
    entity.blocks_movement && entity.fighter.isSome && entity.x == x && entity.y == y

/-- Modelled from the spec: the entity-valued view of
`GameMap.actor_index_at_location` (see there). -/
def GameMap.get_actor_at_location (m : GameMap) (x y : Int) : Option Entity :=
  (m.actor_index_at_location x y).bind fun i => m.entities.get? i

/-- Modelled from the spec: the `color` module imported by `actions.py` and
`message_log.py` is not under `src/`; only the identity of the color tokens
matters to the claims, so they are an enumeration. -/
inductive FgColor where
  | white
  | player_atk
  | enemy_atk
deriving DecidableEq, Repr

/-- `message_log.Message`: text, foreground color, and a stacking count. -/
structure Message where
  plain_text : String
  fg : FgColor
  count : Int
deriving DecidableEq, Repr

/-- `MessageLog.add_message` with its stacking rule: if `stack` is true and
the new text equals the last message's text, bump that message's count,
otherwise append a fresh message with count 1. -/
def addMessage (log : List Message) (text : String) (fg : FgColor) (stack : Bool) :
    List Message :=
  match log.getLast? with
  | some last =>
      if stack && (text == last.plain_text) then
        log.dropLast ++ [{ last with count := last.count + 1 }]
      else
        log ++ [{ plain_text := text, fg := fg, count := 1 }]
  | none => log ++ [{ plain_text := text, fg := fg, count := 1 }]

/-- Python's `str.capitalize()`: first character uppercased, the rest
lowercased (used by `MeleeAction.perform` for the attack description). -/
def strCapitalize (s : String) : String :=
  (s.take 1).toUpper ++ (s.drop 1).toLower

/-- `engine.py`'s `Engine`, restricted to the state the embedded operations
touch: the map (whose entity list holds every actor), the index of the
player inside that list, the message log, lines written with `print`, and
whether the event handler has been swapped to `GameOverEventHandler`. -/
structure Engine where
  game_map : GameMap
  playerIdx : Nat
  message_log : List Message
  printed : List String
  game_over_handler : Bool

/-- Look up an entity by its index in the map's entity list. -/
def Engine.get_entity? (e : Engine) (idx : Nat) : Option Entity :=
  e.game_map.entities.get? idx

/-- Write back an entity at its index (an in-place mutation in the source). -/
def Engine.set_entity (e : Engine) (idx : Nat) (ent : Entity) : Engine :=
  { e with game_map := { e.game_map with entities := e.game_map.entities.set idx ent } }

/-- `Fighter.die`: compute the death message from the still-unmutated name,
swap the handler if the dying entity is the player, then convert the entity
in place into a corpse (glyph `%`, red, non-blocking, no ai, corpse render
order, renamed), and print the message. -/
def Engine.die (e : Engine) (idx : Nat) : Engine :=
  match e.get_entity? idx with
  | none => e
  | some ent =>
      let is_player := idx == e.playerIdx
      let death_message := if is_player then "You died...?" else ent.name ++ " is dead!"
      let e1 := if is_player then { e with game_over_handler := true } else e
      let corpse : Entity :=
        { ent with
          char := "%"
          color := (191, 0, 0)
          blocks_movement := false
          ai := none
          render_order := RenderOrder.corpse
          name := "remains of " ++ ent.name }
      let e2 := e1.set_entity idx corpse
      { e2 with printed := e2.printed ++ [death_message] }

/-- The full `hp` setter of `components/fighter.py` as it acts on the
engine state: clamp the stored hp into `[0, max_hp]`, then
`if self._hp == 0 and self.entity.ai: self.die()`. -/
def Engine.set_hp (e : Engine) (idx : Nat) (value : Int) : Engine :=
  match e.get_entity? idx with
  | none => e
  | some ent =>
      match ent.fighter with
      | none => e
      | some f =>
          let f1 := f.set_hp value
          let e1 := e.set_entity idx { ent with fighter := some f1 }
          if f1.hp == 0 && ent.ai.isSome then e1.die idx else e1

/-- `Engine.update_fov`: `visible[:] = compute_fov(...)` followed by
`explored |= visible`.  `compute_fov` is the external FOV collaborator; its
result for the current transparency grid, player position and radius is the
`fov` parameter. -/
def Engine.update_fov (e : Engine) (fov : Int → Int → Bool) : Engine :=
  let m := e.game_map
  { e with
    game_map :=
      { m with
        visible := fov
        explored := fun x y => m.explored x y || fov x y } }

/-- `MeleeAction.perform`: look up the target actor at the destination
(no-op when there is none), compute `damage = power - defense`, add the
"hit" or "no damage" message, and apply the damage through the hp setter
when it is positive. -/
def melee_perform (e : Engine) (idx : Nat) (dx dy : Int) : Engine :=
  match e.get_entity? idx with
  | none => e
  | some attacker =>
      let dest_x := attacker.x + dx
      let dest_y := attacker.y + dy
      match e.game_map.actor_index_at_location dest_x dest_y with
      | none => e
      | some tIdx =>
          match e.get_entity? tIdx with
          | none => e
          | some target =>
              match attacker.fighter, target.fighter with
              | some af, some tf =>
                  let damage := af.power - tf.defense
                  let attack_desc :=
                    strCapitalize attacker.name ++ " attacks " ++ target.name
                  let attack_color :=
                    if idx == e.playerIdx then FgColor.player_atk else FgColor.enemy_atk
                  if damage > 0 then
                    let e1 :=
                      { e with
                        message_log :=
                          addMessage e.message_log
                            (attack_desc ++ " for " ++ toString damage ++ " hit points.")
                            attack_color true }
                    e1.set_hp tIdx (tf.hp - damage)
                  else
                    { e with
                      message_log :=
                        addMessage e.message_log
                          (attack_desc ++ " but does no damage.")
                          attack_color true }
              | _, _ => e

/-- `MovementAction.perform`: silently return on an out-of-bounds
destination, a non-walkable destination tile, or a blocking entity at the
destination; otherwise move the entity by `(dx, dy)`. -/
def movement_perform (e : Engine) (idx : Nat) (dx dy : Int) : Engine :=
  match e.get_entity? idx with
  | none => e
  | some ent =>
      let dest_x := ent.x + dx
      let dest_y := ent.y + dy
      if !(e.game_map.in_bounds dest_x dest_y) then e
      else if !((e.game_map.tiles dest_x dest_y).walkable) then e
      else if (e.game_map.get_blocking_entity_at_location dest_x dest_y).isSome then e
      else e.set_entity idx (ent.move dx dy)

/-- `BumpAction.perform`: if there is a target actor at the destination,
perform a melee attack, otherwise perform a movement. -/
def bump_perform (e : Engine) (idx : Nat) (dx dy : Int) : Engine :=
  match e.get_entity? idx with
  | none => e
  | some ent =>
      let dest_x := ent.x + dx
      let dest_y := ent.y + dy
      if (e.game_map.get_actor_at_location dest_x dest_y).isSome then
        melee_perform e idx dx dy
      else
        movement_perform e idx dx dy

/-- The closed set of action intents of `actions.py`, each holding the
acting entity (by index) and, for the directional ones, the offset. -/
inductive Action where
  | escape (idx : Nat)
  | waiting (idx : Nat)
  | melee (idx : Nat) (dx dy : Int)
  | movement (idx : Nat) (dx dy : Int)
  | bump (idx : Nat) (dx dy : Int)
deriving DecidableEq, Repr

/-- Dispatch of `Action.perform` over the subclasses.  `EscapeAction`
raises `SystemExit`, embedded as the `error` outcome; everything else
returns the updated engine. -/
def Action.perform : Action → Engine → Except Unit Engine
  | .escape _, _ => .error ()
  | .waiting _, e => .ok e
  | .melee idx dx dy, e => .ok (melee_perform e idx dx dy)
  | .movement idx dx dy, e => .ok (movement_perform e idx dx dy)
  | .bump idx dx dy, e => .ok (bump_perform e idx dx dy)

/-- Bounds-checked read of the tile grid: `none` exactly when the index is
outside `[0, width) × [0, height)`.  Used to state that
`MovementAction.perform` never reads the grid out of bounds. -/
def GameMap.tile_get? (m : GameMap) (x y : Int) : Option Tile :=
  if m.in_bounds x y then some (m.tiles x y) else none

/-- `MovementAction.perform` with every tile-grid read routed through the
bounds-checked accessor, erroring out on an out-of-bounds read.  The guard
structure is exactly that of `movement_perform`; the claim is that the
error branch is unreachable because `in_bounds` is tested first. -/
def movement_perform_checked (e : Engine) (idx : Nat) (dx dy : Int) :
    Except String Engine :=
  match e.get_entity? idx with
  | none => .ok e
  | some ent =>
      let dest_x := ent.x + dx
      let dest_y := ent.y + dy
      if !(e.game_map.in_bounds dest_x dest_y) then .ok e
      else
        match e.game_map.tile_get? dest_x dest_y with
        | none => .error "tile grid read out of bounds"
        | some t =>
            if !t.walkable then .ok e
            else if (e.game_map.get_blocking_entity_at_location dest_x dest_y).isSome then
              .ok e
            else .ok (e.set_entity idx (ent.move dx dy))

/-- Outcome of one `HostileEnemy.perform` decision. -/
inductive AIDecision where
  | melee (dx dy : Int)
  | move (dx dy : Int)
  | waiting
deriving DecidableEq, Repr

/-- The decision logic of `HostileEnemy.perform`: with `visible_self` the
map's `visible` grid sampled at the enemy's own tile, attack when the
Chebyshev distance to the player is at most 1, otherwise replace the cached
path by the freshly computed one (`fresh_path` is the external pathfinder's
result); then, visible or not, pop and follow the first step of whatever
path is stored, and wait when none is.  Returns the decision together with
the path left cached on the actor. -/
def hostile_enemy_decide (visible_self : Bool) (self_x self_y target_x target_y : Int)
    (stored_path fresh_path : List (Int × Int)) :
    AIDecision × List (Int × Int) :=
  let dx := target_x - self_x
  let dy := target_y - self_y
  let distance : Nat := max dx.natAbs dy.natAbs
  if visible_self && decide (distance ≤ 1) then
    (AIDecision.melee dx dy, stored_path)
  else
    let path := if visible_self then fresh_path else stored_path
    match path with
    | [] => (AIDecision.waiting, [])
    | (dest_x, dest_y) :: rest =>
        (AIDecision.move (dest_x - self_x) (dest_y - self_y), rest)

/-- `procgen.RectangularRoom`, stored by its two corners. -/
structure RectangularRoom where
  x1 : Int
  y1 : Int
  x2 : Int
  y2 : Int
deriving DecidableEq, Repr

/-- `RectangularRoom.__init__` from top-left corner and size. -/
def RectangularRoom.make (x y width height : Int) : RectangularRoom :=
  { x1 := x, y1 := y, x2 := x + width, y2 := y + height }

/-- `RectangularRoom.center` (`int((x1+x2)/2)`; all generated coordinates
are nonnegative, where Python's truncating division and `Int`'s `/`
agree). -/
def RectangularRoom.center (r : RectangularRoom) : Int × Int :=
  ((r.x1 + r.x2) / 2, (r.y1 + r.y2) / 2)

/-- Membership in `RectangularRoom.inner`, the slice pair
`(x1+1 : x2, y1+1 : y2)`. -/
def RectangularRoom.inner_contains (r : RectangularRoom) (x y : Int) : Bool :=
  decide (r.x1 + 1 ≤ x) && decide (x < r.x2) &&
    decide (r.y1 + 1 ≤ y) && decide (y < r.y2)

/-- `RectangularRoom.intersects`. -/
def RectangularRoom.intersects (r other : RectangularRoom) : Bool :=
  decide (r.x1 ≤ other.x2) && decide (r.x2 ≥ other.x1) &&
    decide (r.y1 ≤ other.y2) && decide (r.y2 ≥ other.y1)

/-- The random source: the stream of draws the `random` module will
produce, consumed front to back. -/
abbrev Rng := List Nat

/-- `random.randint(lo, hi)`: consume one draw and map it into the
inclusive range (meaningful when `lo ≤ hi`, which holds at every call
site). -/
def randint (rng : Rng) (lo hi : Int) : Int × Rng :=
  match rng with
  | [] => (lo, [])
  | n :: rest => (lo + (n % (hi - lo + 1).toNat : Nat), rest)

/-- `random.random()` exposed at percent granularity: consume one draw and
return it in `[0, 100)`, so the source's `< 0.5` and `< 0.8` comparisons
become `< 50` and `< 80`. -/
def rand_percent (rng : Rng) : Nat × Rng :=
  match rng with
  | [] => (0, [])
  | n :: rest => (n % 100, rest)

/-- The integers from `a` to `b` inclusive, in order of travel. -/
def int_range (a b : Int) : List Int :=
  if a ≤ b then (List.range (b - a + 1).toNat).map fun i : Nat => a + (i : Int)
  else (List.range (a - b + 1).toNat).map fun i : Nat => a - (i : Int)

/-- `tcod.los.bresenham` (external collaborator), modelled for the
axis-aligned segments that are the only ones `tunnel_between` produces:
the inclusive straight line of tiles between the two points. -/
def bresenham (p q : Int × Int) : List (Int × Int) :=
  if p.2 = q.2 then (int_range p.1 q.1).map fun t => (t, p.2)
  else if p.1 = q.1 then (int_range p.2 q.2).map fun t => (p.1, t)
  else []

/-- `procgen.tunnel_between`: flip a coin for the corner (`(x2, y1)` when
`random.random() < 0.5`, i.e. horizontal-then-vertical, else `(x1, y2)`),
then the two Bresenham segments start → corner → end. -/
def tunnel_between (rng : Rng) (start finish : Int × Int) :
    List (Int × Int) × Rng :=
  let x1 := start.1
  let y1 := start.2
  let x2 := finish.1
  let y2 := finish.2
  let draw := rand_percent rng
  let corner : Int × Int := if draw.1 < 50 then (x2, y1) else (x1, y2)
  (bresenham (x1, y1) corner ++ bresenham corner (x2, y2), draw.2)

/-- `dungeon.tiles[new_room.inner] = tile_types.floor`: carve the inner
rectangle. -/
def carve_inner (tiles : Int → Int → Tile) (room : RectangularRoom) :
    Int → Int → Tile :=
  fun a b => if room.inner_contains a b then floorTile else tiles a b

/-- One `dungeon.tiles[x, y] = tile_types.floor` assignment. -/
def set_tile (tiles : Int → Int → Tile) (x y : Int) : Int → Int → Tile :=
  fun a b => if a = x ∧ b = y then floorTile else tiles a b

/-- The `for x, y in tunnel_between(...)` carving loop. -/
def carve_points (tiles : Int → Int → Tile) : List (Int × Int) → (Int → Int → Tile)
  | [] => tiles
  | p :: rest => carve_points (set_tile tiles p.1 p.2) rest

/-- The body of `place_entities`' `for _ in range(number_of_monsters)`
loop: draw a cell inside the room's interior; if any entity already stands
there, place nothing for this iteration; otherwise draw the 80/20
archetype coin and spawn an orc or a troll there. -/
def place_entities_loop (room : RectangularRoom) :
    Nat → GameMap → Rng → GameMap × Rng
  | 0, dungeon, rng => (dungeon, rng)
  | n + 1, dungeon, rng =>
      let dx := randint rng (room.x1 + 1) (room.x2 - 1)
      let dy := randint dx.2 (room.y1 + 1) (room.y2 - 1)
      let x := dx.1
      let y := dy.1
      if dungeon.entities.any fun entity => entity.x == x && entity.y == y then
        place_entities_loop room n dungeon dy.2
      else
        let draw := rand_percent dy.2
        let monster := if draw.1 < 80 then orc.spawn x y else troll.spawn x y
        place_entities_loop room n
          { dungeon with entities := dungeon.entities ++ [monster] } draw.2

/-- `procgen.place_entities`: draw `randint(0, maximum_monsters)` and run
the placement loop that many times. -/
def place_entities (room : RectangularRoom) (dungeon : GameMap)
    (maximum_monsters : Int) (rng : Rng) : GameMap × Rng :=
  let number_of_monsters := randint rng 0 maximum_monsters
  place_entities_loop room number_of_monsters.1.toNat dungeon number_of_monsters.2

/-- The running state of `generate_dungeon`'s placement loop: the dungeon
under construction, the accepted rooms in order, the random stream, and the
count of placement attempts made so far (`for _ in range(max_rooms)`). -/
structure GenState where
  dungeon : GameMap
  rooms : List RectangularRoom
  rng : Rng
  attempts : Nat

/-- One iteration of `generate_dungeon`'s loop: draw a candidate room; if
it intersects any accepted room, skip it (the attempt is still spent);
otherwise carve its inner rectangle, then either place the player at its
center (first accepted room) or carve an L-shaped tunnel from the previous
accepted room's center, then populate the room and append it. -/
def gen_step (room_min_size room_max_size max_monsters_per_room : Int)
    (playerIdx : Nat) (s : GenState) : GenState :=
  let d1 := randint s.rng room_min_size room_max_size
  let room_width := d1.1
  let d2 := randint d1.2 room_min_size room_max_size
  let room_height := d2.1
  let d3 := randint d2.2 0 (s.dungeon.width - room_width - 1)
  let x := d3.1
  let d4 := randint d3.2 0 (s.dungeon.height - room_height - 1)
  let y := d4.1
  let rng4 := d4.2
  let new_room := RectangularRoom.make x y room_width room_height
  if s.rooms.any fun other_room => new_room.intersects other_room then
    { s with rng := rng4, attempts := s.attempts + 1 }
  else
    let carved := { s.dungeon with tiles := carve_inner s.dungeon.tiles new_room }
    match s.rooms.getLast? with
    | none =>
        let c := new_room.center
        let placed :=
          match carved.entities.get? playerIdx with
          | none => carved
          | some p =>
              { carved with
                entities := carved.entities.set playerIdx { p with x := c.1, y := c.2 } }
        let pe := place_entities new_room placed max_monsters_per_room rng4
        { dungeon := pe.1, rooms := s.rooms ++ [new_room], rng := pe.2
          attempts := s.attempts + 1 }
    | some prev =>
        let tun := tunnel_between rng4 prev.center new_room.center
        let dug := { carved with tiles := carve_points carved.tiles tun.1 }
        let pe := place_entities new_room dug max_monsters_per_room tun.2
        { dungeon := pe.1, rooms := s.rooms ++ [new_room], rng := pe.2
          attempts := s.attempts + 1 }

/-- `for _ in range(max_rooms)` over `gen_step`. -/
def gen_loop (room_min_size room_max_size max_monsters_per_room : Int)
    (playerIdx : Nat) : Nat → GenState → GenState
  | 0, s => s
  | n + 1, s =>
      gen_loop room_min_size room_max_size max_monsters_per_room playerIdx n
        (gen_step room_min_size room_max_size max_monsters_per_room playerIdx s)

/-- `procgen.generate_dungeon`: start from an all-wall map holding only the
player and run the placement loop `max_rooms` times.  The Python function
returns `dungeon`; this embedding returns the whole final loop state, whose
`.dungeon` field is that return value (the `rooms` list and attempt count
are internal to the loop and exposed here so they can be reasoned about). -/
def generate_dungeon (max_rooms : Nat)
    (room_min_size room_max_size map_width map_height max_monsters_per_room : Int)
    (player : Entity) (rng : Rng) : GenState :=
  gen_loop room_min_size room_max_size max_monsters_per_room 0 max_rooms
    { dungeon := GameMap.init map_width map_height [player]
      rooms := [], rng := rng, attempts := 0 }

/-- The positions of all entities on the map, in list order; the claims
about what may and may not relocate an actor are phrased through it. -/
def Engine.positions (e : Engine) : List (Int × Int) :=
  e.game_map.entities.map fun ent => (ent.x, ent.y)

/-- `t` lies on the inclusive integer segment from `a` to `b` (in either
direction). -/
def seg_between (a b t : Int) : Prop :=
  min a b ≤ t ∧ t ≤ max a b

/-- Each placed monster occupies a cell that no earlier entity (initial or
previously placed) occupied at its placement time. -/
def ok_placement : List Entity → List Entity → Prop
  | _, [] => True
  | old, m :: rest =>
      (∀ t ∈ old, ¬(t.x = m.x ∧ t.y = m.y)) ∧ ok_placement (old ++ [m]) rest

/-- Loop invariant of `generate_dungeon`: the player (entity index 0)
exists, and once a first room has been accepted the player sits at that
room's center. -/
def player_inv (s : GenState) : Prop :=
  ∃ p, s.dungeon.entities.get? 0 = some p ∧
    (s.rooms = [] ∨ ∃ r0 rest, s.rooms = r0 :: rest ∧
      p.x = r0.center.1 ∧ p.y = r0.center.2)

/-- A 2x2 candidate room whose single interior cell is (1,1). -/
def wRoom : RectangularRoom := RectangularRoom.make 0 0 2 2

/-- A dungeon whose only entity (the player) already occupies (1,1), the
single interior cell of `wRoom`. -/
def wDungeon : GameMap :=
  GameMap.init 5 5 [{ playerFactory with x := 1, y := 1 }]

/-- A 3x3 room for the placement witness. -/
def wRoom3 : RectangularRoom := RectangularRoom.make 0 0 3 3

/-- An empty dungeon for the placement witness. -/
def wDungeonEmpty : GameMap := GameMap.init 5 5 []

/-- The hp stored in the fighter component of the entity at `idx`, when both
exist. -/
def Engine.entity_hp? (e : Engine) (idx : Nat) : Option Int :=
  (e.get_entity? idx).bind fun ent => ent.fighter.map Fighter.hp

/-- The corpse an entity becomes in `Fighter.die`. -/
def Entity.corpse_of (ent : Entity) : Entity :=
  { ent with
    char := "%"
    color := (191, 0, 0)
    blocks_movement := false
    ai := none
    render_order := RenderOrder.corpse
    name := "remains of " ++ ent.name }

/-- Concrete actors and engines used by the witness theorems.  The combat
numbers follow the spec's own concrete scenario: attacker at (5,5) with
power 5, defender at (6,5) with hp 10 and defense 3. -/
def wAttacker : Entity :=
  { x := 5, y := 5, char := "@", color := (255, 255, 255), name := "Player"
    blocks_movement := true, render_order := RenderOrder.actor
    fighter := some { max_hp := 10, hp := 10, defense := 2, power := 5 }
    ai := some { path := [] } }

/-- Concrete defender for the witness theorems (see `wAttacker`). -/
def wDefender : Entity :=
  { x := 6, y := 5, char := "R", color := (63, 127, 63), name := "Robot"
    blocks_movement := true, render_order := RenderOrder.actor
    fighter := some { max_hp := 10, hp := 10, defense := 3, power := 4 }
    ai := some { path := [] } }

/-- Concrete defender with only 1 hp, for the death-transition witness. -/
def wDying : Entity :=
  { wDefender with fighter := some { max_hp := 10, hp := 1, defense := 3, power := 4 } }

/-- Concrete two-actor engine on an all-floor 10x10 map. -/
def wCombat : Engine :=
  { game_map :=
      { width := 10, height := 10, entities := [wAttacker, wDefender]
        tiles := fun _ _ => floorTile
        visible := fun _ _ => true
        explored := fun _ _ => true }
    playerIdx := 0, message_log := [], printed := [], game_over_handler := false }

/-- `wCombat` with the defender on 1 hp. -/
def wCombatDying : Engine :=
  { wCombat with
    game_map := { wCombat.game_map with entities := [wAttacker, wDying] } }

/-- A lone actor on the all-floor map, for movement witnesses. -/
def wLone : Engine :=
  { game_map :=
      { width := 10, height := 10, entities := [wAttacker]
        tiles := fun _ _ => floorTile
        visible := fun _ _ => true
        explored := fun _ _ => true }
    playerIdx := 0, message_log := [], printed := [], game_over_handler := false }

/-- A small concrete engine for the visibility witness: a 3x3 all-floor map
whose explored grid holds exactly the origin. -/
def wEngine : Engine :=
  { game_map :=
      { width := 3, height := 3, entities := []
        tiles := fun _ _ => floorTile
        visible := fun _ _ => false
        explored := fun x y => x == 0 && y == 0 }
    playerIdx := 0, message_log := [], printed := [], game_over_handler := false }

theorem get_entity?_lt {e : Engine} {idx : Nat} {ent : Entity}
    (h : e.get_entity? idx = some ent) : idx < e.game_map.entities.length := by
  unfold Engine.get_entity? at h
  exact (List.get?_eq_some.mp h).choose

theorem get_entity?_set_entity_self {e : Engine} {idx : Nat} {ent : Entity}
    (h : e.get_entity? idx = some ent) (ent' : Entity) :
    (e.set_entity idx ent').get_entity? idx = some ent' := by
  unfold Engine.get_entity? Engine.set_entity
  exact List.get?_set_eq_of_lt ent' (get_entity?_lt h)

theorem get_entity?_set_entity_ne (e : Engine) {idx jdx : Nat} (ent' : Entity)
    (hne : idx ≠ jdx) :
    (e.set_entity idx ent').get_entity? jdx = e.get_entity? jdx := by
  unfold Engine.get_entity? Engine.set_entity
  exact List.get?_set_ne ent' _ hne

theorem die_none {e : Engine} {idx : Nat} (h : e.get_entity? idx = none) :
    e.die idx = e := by
  unfold Engine.die
  simp only [h]

theorem die_eq {e : Engine} {idx : Nat} {ent : Entity} (h : e.get_entity? idx = some ent) :
    e.die idx =
      { e with
        game_map :=
          { e.game_map with entities := e.game_map.entities.set idx ent.corpse_of }
        printed :=
          e.printed ++
            [if idx == e.playerIdx then "You died...?" else ent.name ++ " is dead!"]
        game_over_handler :=
          if idx == e.playerIdx then true else e.game_over_handler } := by
  unfold Engine.die
  simp only [h]
  by_cases hp : (idx == e.playerIdx) = true <;>
    simp [hp, Engine.set_entity, Entity.corpse_of]

theorem set_hp_none {e : Engine} {idx : Nat} (h : e.get_entity? idx = none) (v : Int) :
    e.set_hp idx v = e := by
  unfold Engine.set_hp
  simp only [h]

theorem set_hp_no_fighter {e : Engine} {idx : Nat} {ent : Entity}
    (h : e.get_entity? idx = some ent) (hf : ent.fighter = none) (v : Int) :
    e.set_hp idx v = e := by
  unfold Engine.set_hp
  simp only [h, hf]

theorem set_hp_eq {e : Engine} {idx : Nat} {ent : Entity} {f : Fighter}
    (h : e.get_entity? idx = some ent) (hf : ent.fighter = some f) (v : Int) :
    e.set_hp idx v =
      if (f.set_hp v).hp == 0 && ent.ai.isSome then
        (e.set_entity idx { ent with fighter := some (f.set_hp v) }).die idx
      else e.set_entity idx { ent with fighter := some (f.set_hp v) } := by
  unfold Engine.set_hp
  simp only [h, hf]

theorem map_pos_set {l : List Entity} {idx : Nat} {a : Entity} (b : Entity)
    (h : l.get? idx = some a) (hx : b.x = a.x) (hy : b.y = a.y) :
    (l.set idx b).map (fun ent => (ent.x, ent.y)) = l.map fun ent => (ent.x, ent.y) := by
  apply List.ext
  intro n
  simp only [List.get?_map]
  by_cases hn : idx = n
  · subst hn
    rw [List.get?_set_eq_of_lt b (List.get?_eq_some.mp h).choose, h]
    simp [hx, hy]
  · rw [List.get?_set_ne b _ hn]

theorem positions_set_entity {e : Engine} {idx : Nat} {ent : Entity}
    (h : e.get_entity? idx = some ent) (ent' : Entity)
    (hx : ent'.x = ent.x) (hy : ent'.y = ent.y) :
    (e.set_entity idx ent').positions = e.positions :=
  map_pos_set ent' h hx hy

theorem positions_die (e : Engine) (idx : Nat) :
    (e.die idx).positions = e.positions := by
  cases h : e.get_entity? idx with
  | none => rw [die_none h]
  | some ent =>
      rw [die_eq h]
      exact map_pos_set ent.corpse_of h rfl rfl

theorem positions_set_hp (e : Engine) (idx : Nat) (v : Int) :
    (e.set_hp idx v).positions = e.positions := by
  cases h : e.get_entity? idx with
  | none => rw [set_hp_none h]
  | some ent =>
      cases hf : ent.fighter with
      | none => rw [set_hp_no_fighter h hf]
      | some f =>
          rw [set_hp_eq h hf]
          by_cases hc : ((f.set_hp v).hp == 0 && ent.ai.isSome) = true
          · rw [if_pos hc, positions_die]
            exact positions_set_entity h _ rfl rfl
          · rw [if_neg hc]
            exact positions_set_entity h _ rfl rfl

theorem grids_set_entity (e : Engine) (idx : Nat) (ent : Entity) :
    (e.set_entity idx ent).game_map.visible = e.game_map.visible ∧
      (e.set_entity idx ent).game_map.explored = e.game_map.explored :=
  ⟨rfl, rfl⟩

theorem grids_die (e : Engine) (idx : Nat) :
    (e.die idx).game_map.visible = e.game_map.visible ∧
      (e.die idx).game_map.explored = e.game_map.explored := by
  cases h : e.get_entity? idx with
  | none => rw [die_none h]; exact ⟨rfl, rfl⟩
  | some ent => rw [die_eq h]; exact ⟨rfl, rfl⟩

theorem grids_set_hp (e : Engine) (idx : Nat) (v : Int) :
    (e.set_hp idx v).game_map.visible = e.game_map.visible ∧
      (e.set_hp idx v).game_map.explored = e.game_map.explored := by
  cases h : e.get_entity? idx with
  | none => rw [set_hp_none h]; exact ⟨rfl, rfl⟩
  | some ent =>
      cases hf : ent.fighter with
      | none => rw [set_hp_no_fighter h hf]; exact ⟨rfl, rfl⟩
      | some f =>
          rw [set_hp_eq h hf]
          by_cases hc : ((f.set_hp v).hp == 0 && ent.ai.isSome) = true
          · rw [if_pos hc]
            exact grids_die _ idx
          · rw [if_neg hc]
            exact grids_set_entity e idx _

theorem melee_no_attacker {e : Engine} {idx : Nat} (dx dy : Int)
    (h1 : e.get_entity? idx = none) : melee_perform e idx dx dy = e := by
  unfold melee_perform
  simp only [h1]

theorem melee_no_target_index {e : Engine} {idx : Nat} {attacker : Entity} (dx dy : Int)
    (h1 : e.get_entity? idx = some attacker)
    (h2 : e.game_map.actor_index_at_location (attacker.x + dx) (attacker.y + dy) = none) :
    melee_perform e idx dx dy = e := by
  unfold melee_perform
  simp only [h1, h2]

theorem melee_no_target {e : Engine} {idx tIdx : Nat} {attacker : Entity} (dx dy : Int)
    (h1 : e.get_entity? idx = some attacker)
    (h2 : e.game_map.actor_index_at_location (attacker.x + dx) (attacker.y + dy) = some tIdx)
    (h3 : e.get_entity? tIdx = none) :
    melee_perform e idx dx dy = e := by
  unfold melee_perform
  simp only [h1, h2, h3]

theorem melee_no_attacker_fighter {e : Engine} {idx tIdx : Nat} {attacker target : Entity}
    (dx dy : Int)
    (h1 : e.get_entity? idx = some attacker)
    (h2 : e.game_map.actor_index_at_location (attacker.x + dx) (attacker.y + dy) = some tIdx)
    (h3 : e.get_entity? tIdx = some target)
    (h4 : attacker.fighter = none) :
    melee_perform e idx dx dy = e := by
  unfold melee_perform
  simp only [h1, h2, h3, h4]

theorem melee_no_target_fighter {e : Engine} {idx tIdx : Nat} {attacker target : Entity}
    (dx dy : Int)
    (h1 : e.get_entity? idx = some attacker)
    (h2 : e.game_map.actor_index_at_location (attacker.x + dx) (attacker.y + dy) = some tIdx)
    (h3 : e.get_entity? tIdx = some target)
    (h5 : target.fighter = none) :
    melee_perform e idx dx dy = e := by
  unfold melee_perform
  simp only [h1, h2, h3, h5]
  cases attacker.fighter <;> rfl

theorem melee_eq {e : Engine} {idx tIdx : Nat} {attacker target : Entity}
    {af tf : Fighter} (dx dy : Int)
    (h1 : e.get_entity? idx = some attacker)
    (h2 : e.game_map.actor_index_at_location (attacker.x + dx) (attacker.y + dy) = some tIdx)
    (h3 : e.get_entity? tIdx = some target)
    (h4 : attacker.fighter = some af)
    (h5 : target.fighter = some tf) :
    melee_perform e idx dx dy =
      (if af.power - tf.defense > 0 then
        ({ e with
          message_log :=
            addMessage e.message_log
              (strCapitalize attacker.name ++ " attacks " ++ target.name ++ " for "
                ++ toString (af.power - tf.defense) ++ " hit points.")
              (if idx == e.playerIdx then FgColor.player_atk else FgColor.enemy_atk)
              true } : Engine).set_hp tIdx (tf.hp - (af.power - tf.defense))
      else
        { e with
          message_log :=
            addMessage e.message_log
              (strCapitalize attacker.name ++ " attacks " ++ target.name
                ++ " but does no damage.")
              (if idx == e.playerIdx then FgColor.player_atk else FgColor.enemy_atk)
              true }) := by
  unfold melee_perform
  simp only [h1, h2, h3, h4, h5]

theorem grids_melee (e : Engine) (idx : Nat) (dx dy : Int) :
    (melee_perform e idx dx dy).game_map.visible = e.game_map.visible ∧
      (melee_perform e idx dx dy).game_map.explored = e.game_map.explored := by
  cases h1 : e.get_entity? idx with
  | none => rw [melee_no_attacker dx dy h1]; exact ⟨rfl, rfl⟩
  | some attacker =>
      cases h2 : e.game_map.actor_index_at_location (attacker.x + dx) (attacker.y + dy) with
      | none => rw [melee_no_target_index dx dy h1 h2]; exact ⟨rfl, rfl⟩
      | some tIdx =>
          cases h3 : e.get_entity? tIdx with
          | none => rw [melee_no_target dx dy h1 h2 h3]; exact ⟨rfl, rfl⟩
          | some target =>
              cases h4 : attacker.fighter with
              | none => rw [melee_no_attacker_fighter dx dy h1 h2 h3 h4]; exact ⟨rfl, rfl⟩
              | some af =>
                  cases h5 : target.fighter with
                  | none => rw [melee_no_target_fighter dx dy h1 h2 h3 h5]; exact ⟨rfl, rfl⟩
                  | some tf =>
                      rw [melee_eq dx dy h1 h2 h3 h4 h5]
                      by_cases hd : af.power - tf.defense > 0
                      · rw [if_pos hd]
                        exact grids_set_hp _ tIdx _
                      · rw [if_neg hd]
                        exact ⟨rfl, rfl⟩

theorem movement_no_entity {e : Engine} {idx : Nat} (dx dy : Int)
    (h : e.get_entity? idx = none) : movement_perform e idx dx dy = e := by
  unfold movement_perform
  simp only [h]

theorem movement_eq {e : Engine} {idx : Nat} {ent : Entity} (dx dy : Int)
    (h : e.get_entity? idx = some ent) :
    movement_perform e idx dx dy =
      (if !(e.game_map.in_bounds (ent.x + dx) (ent.y + dy)) then e
      else if !((e.game_map.tiles (ent.x + dx) (ent.y + dy)).walkable) then e
      else if (e.game_map.get_blocking_entity_at_location (ent.x + dx) (ent.y + dy)).isSome
        then e
      else e.set_entity idx (ent.move dx dy)) := by
  unfold movement_perform
  simp only [h]

theorem bump_no_entity {e : Engine} {idx : Nat} (dx dy : Int)
    (h : e.get_entity? idx = none) : bump_perform e idx dx dy = e := by
  unfold bump_perform
  simp only [h]

theorem bump_eq {e : Engine} {idx : Nat} {ent : Entity} (dx dy : Int)
    (h : e.get_entity? idx = some ent) :
    bump_perform e idx dx dy =
      (if (e.game_map.get_actor_at_location (ent.x + dx) (ent.y + dy)).isSome then
        melee_perform e idx dx dy
      else movement_perform e idx dx dy) := by
  unfold bump_perform
  simp only [h]

theorem grids_movement (e : Engine) (idx : Nat) (dx dy : Int) :
    (movement_perform e idx dx dy).game_map.visible = e.game_map.visible ∧
      (movement_perform e idx dx dy).game_map.explored = e.game_map.explored := by
  cases h : e.get_entity? idx with
  | none => rw [movement_no_entity dx dy h]; exact ⟨rfl, rfl⟩
  | some ent =>
      rw [movement_eq dx dy h]
      by_cases h1 : (!(e.game_map.in_bounds (ent.x + dx) (ent.y + dy))) = true
      · rw [if_pos h1]; exact ⟨rfl, rfl⟩
      · rw [if_neg h1]
        by_cases h2 : (!((e.game_map.tiles (ent.x + dx) (ent.y + dy)).walkable)) = true
        · rw [if_pos h2]; exact ⟨rfl, rfl⟩
        · rw [if_neg h2]
          by_cases h3 :
              ((e.game_map.get_blocking_entity_at_location (ent.x + dx) (ent.y + dy)).isSome)
                = true
          · rw [if_pos h3]; exact ⟨rfl, rfl⟩
          · rw [if_neg h3]; exact grids_set_entity e idx _

theorem grids_bump (e : Engine) (idx : Nat) (dx dy : Int) :
    (bump_perform e idx dx dy).game_map.visible = e.game_map.visible ∧
      (bump_perform e idx dx dy).game_map.explored = e.game_map.explored := by
  cases h : e.get_entity? idx with
  | none => rw [bump_no_entity dx dy h]; exact ⟨rfl, rfl⟩
  | some ent =>
      rw [bump_eq dx dy h]
      by_cases h1 : ((e.game_map.get_actor_at_location (ent.x + dx) (ent.y + dy)).isSome) = true
      · rw [if_pos h1]; exact grids_melee e idx dx dy
      · rw [if_neg h1]; exact grids_movement e idx dx dy

theorem positions_melee (e : Engine) (idx : Nat) (dx dy : Int) :
    (melee_perform e idx dx dy).positions = e.positions := by
  cases h1 : e.get_entity? idx with
  | none => rw [melee_no_attacker dx dy h1]
  | some attacker =>
      cases h2 : e.game_map.actor_index_at_location (attacker.x + dx) (attacker.y + dy) with
      | none => rw [melee_no_target_index dx dy h1 h2]
      | some tIdx =>
          cases h3 : e.get_entity? tIdx with
          | none => rw [melee_no_target dx dy h1 h2 h3]
          | some target =>
              cases h4 : attacker.fighter with
              | none => rw [melee_no_attacker_fighter dx dy h1 h2 h3 h4]
              | some af =>
                  cases h5 : target.fighter with
                  | none => rw [melee_no_target_fighter dx dy h1 h2 h3 h5]
                  | some tf =>
                      rw [melee_eq dx dy h1 h2 h3 h4 h5]
                      by_cases hd : af.power - tf.defense > 0
                      · rw [if_pos hd, positions_set_hp]
                        rfl
                      · rw [if_neg hd]
                        rfl

theorem get_actor_isSome_iff (m : GameMap) (x y : Int) :
    (m.get_actor_at_location x y).isSome = true ↔
      ∃ t ∈ m.entities, t.blocks_movement = true ∧ t.fighter.isSome = true ∧
        t.x = x ∧ t.y = y := by
  unfold GameMap.get_actor_at_location GameMap.actor_index_at_location
  cases hf : m.entities.findIdx?
      (fun entity => entity.blocks_movement && entity.fighter.isSome
        && entity.x == x && entity.y == y) with
  | none =>
      rw [List.findIdx?_eq_none_iff] at hf
      simp only [Option.bind_eq_bind, Option.none_bind, Option.isSome_none,
        Bool.false_eq_true, false_iff]
      rintro ⟨t, ht, hb, hfi, hx, hy⟩
      have := hf t ht
      simp [hb, hfi, hx, hy] at this
  | some i =>
      rw [List.findIdx?_eq_some_iff_getElem] at hf
      obtain ⟨hlt, hp, _⟩ := hf
      simp only [Bool.and_eq_true, beq_iff_eq] at hp
      constructor
      · intro _
        exact ⟨m.entities[i], List.getElem_mem hlt, hp.1.1.1, hp.1.1.2, hp.1.2, hp.2⟩
      · intro _
        simp [List.getElem?_eq_some.mpr ⟨hlt, rfl⟩]

theorem get_blocking_none_of_no_blocker (m : GameMap) (x y : Int)
    (h : ∀ t ∈ m.entities, ¬(t.blocks_movement = true ∧ t.x = x ∧ t.y = y)) :
    m.get_blocking_entity_at_location x y = none := by
  unfold GameMap.get_blocking_entity_at_location
  rw [List.find?_eq_none]
  intro t ht
  simp only [Bool.and_eq_true, beq_iff_eq]
  rintro ⟨⟨hb, hx⟩, hy⟩
  exact h t ht ⟨hb, hx, hy⟩

theorem message_log_die (e : Engine) (idx : Nat) :
    (e.die idx).message_log = e.message_log := by
  cases h : e.get_entity? idx with
  | none => rw [die_none h]
  | some ent => rw [die_eq h]

theorem message_log_set_hp (e : Engine) (idx : Nat) (v : Int) :
    (e.set_hp idx v).message_log = e.message_log := by
  cases h : e.get_entity? idx with
  | none => rw [set_hp_none h]
  | some ent =>
      cases hf : ent.fighter with
      | none => rw [set_hp_no_fighter h hf]
      | some f =>
          rw [set_hp_eq h hf]
          by_cases hc : ((f.set_hp v).hp == 0 && ent.ai.isSome) = true
          · rw [if_pos hc, message_log_die]
            rfl
          · rw [if_neg hc]
            rfl

theorem set_hp_hp_value (f : Fighter) (v : Int) :
    (f.set_hp v).hp = max 0 (min v f.max_hp) := rfl

theorem entity_hp?_set_hp {e : Engine} {idx : Nat} {ent : Entity} {f : Fighter}
    (h : e.get_entity? idx = some ent) (hf : ent.fighter = some f) (v : Int) :
    (e.set_hp idx v).entity_hp? idx = some (max 0 (min v f.max_hp)) := by
  rw [set_hp_eq h hf]
  by_cases hc : ((f.set_hp v).hp == 0 && ent.ai.isSome) = true
  · rw [if_pos hc]
    have h' : (e.set_entity idx { ent with fighter := some (f.set_hp v) }).get_entity? idx
        = some { ent with fighter := some (f.set_hp v) } :=
      get_entity?_set_entity_self h _
    rw [die_eq h']
    have hlt : idx < e.game_map.entities.length := get_entity?_lt h
    simp only [Engine.entity_hp?, Engine.get_entity?, Engine.set_entity]
    rw [List.get?_set_eq_of_lt _ (by simpa using hlt)]
    simp [Entity.corpse_of, Fighter.set_hp]
  · rw [if_neg hc]
    simp only [Engine.entity_hp?]
    rw [get_entity?_set_entity_self h _]
    simp [Fighter.set_hp]

theorem ai_none_set_hp (e : Engine) (tIdx : Nat) (v : Int) {idx : Nat} {ent : Entity}
    (h : e.get_entity? idx = some ent) (hai : ent.ai = none) :
    ∀ ent', (e.set_hp tIdx v).get_entity? idx = some ent' → ent'.ai = none := by
  intro ent' h'
  by_cases hij : tIdx = idx
  · subst hij
    cases hf : ent.fighter with
    | none =>
        rw [set_hp_no_fighter h hf, h] at h'
        cases h'
        exact hai
    | some f =>
        rw [set_hp_eq h hf] at h'
        have hc : ((f.set_hp v).hp == 0 && ent.ai.isSome) = false := by
          simp [hai]
        rw [hc] at h'
        simp only [Bool.false_eq_true, if_false] at h'
        rw [get_entity?_set_entity_self h _] at h'
        cases h'
        exact hai
  · cases hg : e.get_entity? tIdx with
    | none =>
        rw [set_hp_none hg, h] at h'
        cases h'
        exact hai
    | some tent =>
        cases hf : tent.fighter with
        | none =>
            rw [set_hp_no_fighter hg hf, h] at h'
            cases h'
            exact hai
        | some f =>
            rw [set_hp_eq hg hf] at h'
            have h1 : (e.set_entity tIdx
                { tent with fighter := some (f.set_hp v) }).get_entity? idx = some ent := by
              rw [get_entity?_set_entity_ne e _ hij]
              exact h
            by_cases hc : ((f.set_hp v).hp == 0 && tent.ai.isSome) = true
            · rw [if_pos hc] at h'
              have hg1 : (e.set_entity tIdx
                  { tent with fighter := some (f.set_hp v) }).get_entity? tIdx
                    = some { tent with fighter := some (f.set_hp v) } :=
                get_entity?_set_entity_self hg _
              rw [die_eq hg1] at h'
              simp only [Engine.get_entity?, Engine.set_entity] at h'
              rw [List.get?_set_ne _ _ hij, List.get?_set_ne _ _ hij] at h'
              have hh : e.game_map.entities.get? idx = some ent := h
              rw [hh] at h'
              cases h'
              exact hai
            · rw [if_neg hc] at h'
              rw [h1] at h'
              cases h'
              exact hai

theorem actor_index_none_of_not_blocking (m : GameMap) (x y : Int)
    (h : ∀ t ∈ m.entities, t.x = x ∧ t.y = y → t.blocks_movement = false) :
    m.actor_index_at_location x y = none := by
  unfold GameMap.actor_index_at_location
  rw [List.findIdx?_eq_none_iff]
  intro t ht
  by_cases hxy : t.x = x ∧ t.y = y
  · have hb := h t ht hxy
    simp [hb]
  · rcases not_and_or.mp hxy with hx | hy
    · simp [hx]
    · simp [hy]

theorem ai_none_movement (e : Engine) (idx : Nat) (dx dy : Int) {jdx : Nat} {ent : Entity}
    (h : e.get_entity? jdx = some ent) (hai : ent.ai = none) :
    ∀ ent', (movement_perform e idx dx dy).get_entity? jdx = some ent' → ent'.ai = none := by
  intro ent' h'
  cases hg : e.get_entity? idx with
  | none =>
      rw [movement_no_entity dx dy hg, h] at h'
      cases h'
      exact hai
  | some mover =>
      rw [movement_eq dx dy hg] at h'
      split_ifs at h'
      · rw [h] at h'; cases h'; exact hai
      · rw [h] at h'; cases h'; exact hai
      · rw [h] at h'; cases h'; exact hai
      · by_cases hij : idx = jdx
        · subst hij
          rw [get_entity?_set_entity_self hg _] at h'
          cases h'
          rw [hg] at h
          cases h
          exact hai
        · rw [get_entity?_set_entity_ne e _ hij, h] at h'
          cases h'
          exact hai

theorem ai_none_melee (e : Engine) (idx : Nat) (dx dy : Int) {jdx : Nat} {ent : Entity}
    (h : e.get_entity? jdx = some ent) (hai : ent.ai = none) :
    ∀ ent', (melee_perform e idx dx dy).get_entity? jdx = some ent' → ent'.ai = none := by
  intro ent' h'
  cases h1 : e.get_entity? idx with
  | none =>
      rw [melee_no_attacker dx dy h1, h] at h'
      cases h'
      exact hai
  | some attacker =>
      cases h2 : e.game_map.actor_index_at_location (attacker.x + dx) (attacker.y + dy) with
      | none =>
          rw [melee_no_target_index dx dy h1 h2, h] at h'
          cases h'
          exact hai
      | some tIdx =>
          cases h3 : e.get_entity? tIdx with
          | none =>
              rw [melee_no_target dx dy h1 h2 h3, h] at h'
              cases h'
              exact hai
          | some target =>
              cases h4 : attacker.fighter with
              | none =>
                  rw [melee_no_attacker_fighter dx dy h1 h2 h3 h4, h] at h'
                  cases h'
                  exact hai
              | some af =>
                  cases h5 : target.fighter with
                  | none =>
                      rw [melee_no_target_fighter dx dy h1 h2 h3 h5, h] at h'
                      cases h'
                      exact hai
                  | some tf =>
                      rw [melee_eq dx dy h1 h2 h3 h4 h5] at h'
                      by_cases hd : af.power - tf.defense > 0
                      · rw [if_pos hd] at h'
                        refine ai_none_set_hp _ tIdx _ ?_ hai ent' h'
                        exact h
                      · rw [if_neg hd] at h'
                        have h'' : e.get_entity? jdx = some ent' := h'
                        rw [h] at h''
                        cases h''
                        exact hai

theorem ai_none_bump (e : Engine) (idx : Nat) (dx dy : Int) {jdx : Nat} {ent : Entity}
    (h : e.get_entity? jdx = some ent) (hai : ent.ai = none) :
    ∀ ent', (bump_perform e idx dx dy).get_entity? jdx = some ent' → ent'.ai = none := by
  intro ent' h'
  cases hg : e.get_entity? idx with
  | none =>
      rw [bump_no_entity dx dy hg, h] at h'
      cases h'
      exact hai
  | some mover =>
      rw [bump_eq dx dy hg] at h'
      by_cases ha : ((e.game_map.get_actor_at_location (mover.x + dx) (mover.y + dy)).isSome)
          = true
      · rw [if_pos ha] at h'
        exact ai_none_melee e idx dx dy h hai ent' h'
      · rw [if_neg ha] at h'
        exact ai_none_movement e idx dx dy h hai ent' h'

theorem ai_none_perform (a : Action) (e r : Engine) (hp : a.perform e = Except.ok r)
    {jdx : Nat} {ent : Entity}
    (h : e.get_entity? jdx = some ent) (hai : ent.ai = none) :
    ∀ ent', r.get_entity? jdx = some ent' → ent'.ai = none := by
  cases a with
  | escape idx => exact absurd hp (by simp [Action.perform])
  | waiting idx =>
      cases hp
      intro ent' h'
      rw [h] at h'
      cases h'
      exact hai
  | melee idx dx dy =>
      cases hp
      exact ai_none_melee e idx dx dy h hai
  | movement idx dx dy =>
      cases hp
      exact ai_none_movement e idx dx dy h hai
  | bump idx dx dy =>
      cases hp
      exact ai_none_bump e idx dx dy h hai

theorem randint_bounds (rng : Rng) (lo hi : Int) (h : lo ≤ hi) :
    lo ≤ (randint rng lo hi).1 ∧ (randint rng lo hi).1 ≤ hi := by
  cases rng with
  | nil => exact ⟨le_refl lo, h⟩
  | cons n rest =>
      simp only [randint]
      have hk : 0 < (hi - lo + 1).toNat := by omega
      have hmod : n % (hi - lo + 1).toNat < (hi - lo + 1).toNat := Nat.mod_lt n hk
      have hcast : ((n % (hi - lo + 1).toNat : Nat) : Int) < ((hi - lo + 1).toNat : Int) :=
        Int.ofNat_lt.mpr hmod
      constructor
      · omega
      · omega

theorem int_range_mem (a b t : Int) :
    t ∈ int_range a b ↔ seg_between a b t := by
  unfold int_range seg_between
  by_cases h : a ≤ b
  · rw [if_pos h, min_eq_left h, max_eq_right h]
    simp only [List.mem_map, List.mem_range]
    constructor
    · rintro ⟨i, hi, rfl⟩
      omega
    · intro ⟨h1, h2⟩
      exact ⟨(t - a).toNat, by omega, by omega⟩
  · have h' : b ≤ a := le_of_not_le h
    rw [if_neg h, min_eq_right h', max_eq_left h']
    simp only [List.mem_map, List.mem_range]
    constructor
    · rintro ⟨i, hi, rfl⟩
      omega
    · intro ⟨h1, h2⟩
      exact ⟨(a - t).toNat, by omega, by omega⟩

theorem bresenham_mem_horizontal (a c b : Int) (p : Int × Int) :
    p ∈ bresenham (a, b) (c, b) ↔ p.2 = b ∧ seg_between a c p.1 := by
  unfold bresenham
  rw [if_pos rfl]
  simp only [List.mem_map]
  constructor
  · rintro ⟨t, ht, rfl⟩
    exact ⟨rfl, (int_range_mem a c t).mp ht⟩
  · intro ⟨h2, hseg⟩
    exact ⟨p.1, (int_range_mem a c p.1).mpr hseg, by rw [← h2]⟩

theorem bresenham_mem_vertical (a b d : Int) (p : Int × Int) :
    p ∈ bresenham (a, b) (a, d) ↔ p.1 = a ∧ seg_between b d p.2 := by
  by_cases hb : b = d
  · subst hb
    rw [bresenham_mem_horizontal]
    unfold seg_between
    constructor
    · intro ⟨h2, h3, h4⟩
      refine ⟨by omega, by omega, by omega⟩
    · intro ⟨h1, h3, h4⟩
      refine ⟨by omega, by omega, by omega⟩
  · unfold bresenham
    rw [if_neg hb, if_pos rfl]
    simp only [List.mem_map]
    constructor
    · rintro ⟨t, ht, rfl⟩
      exact ⟨rfl, (int_range_mem b d t).mp ht⟩
    · intro ⟨h1, hseg⟩
      exact ⟨p.2, (int_range_mem b d p.2).mpr hseg, by rw [← h1]⟩

theorem tunnel_between_mem (rng : Rng) (c1 c2 p : Int × Int) :
    (((rand_percent rng).1 < 50 →
      (p ∈ (tunnel_between rng c1 c2).1 ↔
        (p.2 = c1.2 ∧ seg_between c1.1 c2.1 p.1) ∨
          (p.1 = c2.1 ∧ seg_between c1.2 c2.2 p.2))) ∧
    (¬((rand_percent rng).1 < 50) →
      (p ∈ (tunnel_between rng c1 c2).1 ↔
        (p.1 = c1.1 ∧ seg_between c1.2 c2.2 p.2) ∨
          (p.2 = c2.2 ∧ seg_between c1.1 c2.1 p.1)))) := by
  constructor
  · intro hcoin
    unfold tunnel_between
    simp only [if_pos hcoin, List.mem_append]
    rw [bresenham_mem_horizontal, bresenham_mem_vertical]
  · intro hcoin
    unfold tunnel_between
    simp only [if_neg hcoin, List.mem_append]
    rw [bresenham_mem_vertical, bresenham_mem_horizontal]

theorem carve_points_at (pts : List (Int × Int)) (tiles : Int → Int → Tile) (x y : Int) :
    carve_points tiles pts x y = if (x, y) ∈ pts then floorTile else tiles x y := by
  induction pts generalizing tiles with
  | nil => simp [carve_points]
  | cons p rest ih =>
      obtain ⟨p1, p2⟩ := p
      rw [carve_points, ih]
      unfold set_tile
      simp only [List.mem_cons, Prod.mk.injEq]
      by_cases h1 : (x, y) ∈ rest <;> by_cases h2 : x = p1 ∧ y = p2 <;>
        simp [h1, h2]

theorem place_entities_loop_spec (room : RectangularRoom)
    (hx : room.x1 + 1 ≤ room.x2 - 1) (hy : room.y1 + 1 ≤ room.y2 - 1) :
    ∀ (n : Nat) (dungeon : GameMap) (rng : Rng),
      ∃ added,
        (place_entities_loop room n dungeon rng).1
            = { dungeon with entities := dungeon.entities ++ added } ∧
          added.length ≤ n ∧
          (∀ m ∈ added, room.inner_contains m.x m.y = true ∧
            (m = orc.spawn m.x m.y ∨ m = troll.spawn m.x m.y)) ∧
          ok_placement dungeon.entities added := by
  intro n
  induction n with
  | zero =>
      intro dungeon rng
      refine ⟨[], ?_, by simp, by simp, trivial⟩
      show dungeon = _
      simp
  | succ k ih =>
      intro dungeon rng
      simp only [place_entities_loop]
      set a := randint rng (room.x1 + 1) (room.x2 - 1) with ha
      set b := randint a.2 (room.y1 + 1) (room.y2 - 1) with hb
      have hax : room.x1 + 1 ≤ a.1 ∧ a.1 ≤ room.x2 - 1 := by
        rw [ha]
        exact randint_bounds rng _ _ hx
      have hby : room.y1 + 1 ≤ b.1 ∧ b.1 ≤ room.y2 - 1 := by
        rw [hb]
        exact randint_bounds a.2 _ _ hy
      by_cases hocc : (dungeon.entities.any fun entity => entity.x == a.1 && entity.y == b.1)
          = true
      · rw [if_pos hocc]
        obtain ⟨added, h1, h2, h3, h4⟩ := ih dungeon b.2
        exact ⟨added, h1, Nat.le_succ_of_le h2, h3, h4⟩
      · rw [if_neg hocc]
        set r := rand_percent b.2 with hr
        set monster := (if r.1 < 80 then orc.spawn a.1 b.1 else troll.spawn a.1 b.1) with hm
        have hmx : monster.x = a.1 := by
          rw [hm]
          by_cases h80 : r.1 < 80 <;> simp [h80, Entity.spawn]
        have hmy : monster.y = b.1 := by
          rw [hm]
          by_cases h80 : r.1 < 80 <;> simp [h80, Entity.spawn]
        obtain ⟨added, h1, h2, h3, h4⟩ :=
          ih { dungeon with entities := dungeon.entities ++ [monster] } r.2
        refine ⟨monster :: added, ?_, by simpa using h2, ?_, ?_⟩
        · rw [h1]
          congr 1
          simp
        · intro m hmem
          rcases List.mem_cons.mp hmem with hmem | hmem
          · subst hmem
            constructor
            · unfold RectangularRoom.inner_contains
              have h1' : room.x1 + 1 ≤ monster.x := by rw [hmx]; exact hax.1
              have h2' : monster.x < room.x2 := by rw [hmx]; omega
              have h3' : room.y1 + 1 ≤ monster.y := by rw [hmy]; exact hby.1
              have h4' : monster.y < room.y2 := by rw [hmy]; omega
              simp [h1', h2', h3', h4']
            · by_cases h80 : r.1 < 80
              · left
                rw [hm, if_pos h80]
                rfl
              · right
                rw [hm, if_neg h80]
                rfl
          · exact h3 m hmem
        · constructor
          · intro t ht hxy
            apply absurd hocc
            simp only [ne_eq, not_not, List.any_eq_true]
            refine ⟨t, ht, ?_⟩
            rw [← hmx, ← hmy]
            simp [hxy.1, hxy.2]
          · exact h4

theorem intersects_symm (a b : RectangularRoom) :
    a.intersects b = b.intersects a := by
  unfold RectangularRoom.intersects
  rw [Bool.eq_iff_iff]
  simp only [Bool.and_eq_true, decide_eq_true_iff, ge_iff_le]
  tauto

theorem place_entities_loop_append (room : RectangularRoom) :
    ∀ (n : Nat) (dungeon : GameMap) (rng : Rng),
      ∃ added, (place_entities_loop room n dungeon rng).1
        = { dungeon with entities := dungeon.entities ++ added } := by
  intro n
  induction n with
  | zero =>
      intro dungeon rng
      refine ⟨[], ?_⟩
      show dungeon = _
      simp
  | succ k ih =>
      intro dungeon rng
      simp only [place_entities_loop]
      set a := randint rng (room.x1 + 1) (room.x2 - 1) with ha
      set b := randint a.2 (room.y1 + 1) (room.y2 - 1) with hb
      by_cases hocc : (dungeon.entities.any fun entity => entity.x == a.1 && entity.y == b.1)
          = true
      · rw [if_pos hocc]
        exact ih dungeon b.2
      · rw [if_neg hocc]
        set r := rand_percent b.2 with hr
        set monster := (if r.1 < 80 then orc.spawn a.1 b.1 else troll.spawn a.1 b.1) with hm
        obtain ⟨added, h1⟩ := ih { dungeon with entities := dungeon.entities ++ [monster] } r.2
        refine ⟨monster :: added, ?_⟩
        rw [h1]
        congr 1
        simp

theorem place_entities_append (room : RectangularRoom) (dungeon : GameMap)
    (mm : Int) (rng : Rng) :
    ∃ added, (place_entities room dungeon mm rng).1
      = { dungeon with entities := dungeon.entities ++ added } := by
  unfold place_entities
  exact place_entities_loop_append room _ dungeon _

theorem gen_step_first (rmin rmax mm : Int) (pidx : Nat) (s : GenState)
    (hrooms : s.rooms = []) {p : Entity}
    (hp : s.dungeon.entities.get? pidx = some p) :
    ∃ nr rng4,
      gen_step rmin rmax mm pidx s =
        { dungeon := (place_entities nr
            { s.dungeon with
              tiles := carve_inner s.dungeon.tiles nr
              entities := s.dungeon.entities.set pidx
                { p with x := nr.center.1, y := nr.center.2 } } mm rng4).1
          rooms := [nr]
          rng := (place_entities nr
            { s.dungeon with
              tiles := carve_inner s.dungeon.tiles nr
              entities := s.dungeon.entities.set pidx
                { p with x := nr.center.1, y := nr.center.2 } } mm rng4).2
          attempts := s.attempts + 1 } := by
  unfold gen_step
  simp only [hrooms, List.any_nil, Bool.false_eq_true, if_false, List.getLast?_nil, hp,
    List.nil_append]
  exact ⟨_, _, rfl⟩

theorem gen_step_later (rmin rmax mm : Int) (pidx : Nat) (s : GenState)
    {prev : RectangularRoom} (hlast : s.rooms.getLast? = some prev) :
    (∃ rng', gen_step rmin rmax mm pidx s
        = { s with rng := rng', attempts := s.attempts + 1 }) ∨
    (∃ nr rng4, (s.rooms.any fun o => nr.intersects o) = false ∧
      gen_step rmin rmax mm pidx s =
        { dungeon := (place_entities nr
            { s.dungeon with
              tiles := carve_points (carve_inner s.dungeon.tiles nr)
                (tunnel_between rng4 prev.center nr.center).1 } mm
            (tunnel_between rng4 prev.center nr.center).2).1
          rooms := s.rooms ++ [nr]
          rng := (place_entities nr
            { s.dungeon with
              tiles := carve_points (carve_inner s.dungeon.tiles nr)
                (tunnel_between rng4 prev.center nr.center).1 } mm
            (tunnel_between rng4 prev.center nr.center).2).2
          attempts := s.attempts + 1 }) := by
  simp only [gen_step]
  split
  · exact Or.inl ⟨_, rfl⟩
  · rename_i hcond
    rw [hlast]
    refine Or.inr ⟨_, _, ?_, rfl⟩
    simpa using hcond

theorem gen_step_attempts (rmin rmax mm : Int) (pidx : Nat) (s : GenState) :
    (gen_step rmin rmax mm pidx s).attempts = s.attempts + 1 := by
  simp only [gen_step]
  split
  · rfl
  · split
    · split <;> rfl
    · rfl

theorem gen_step_rooms_cases (rmin rmax mm : Int) (pidx : Nat) (s : GenState) :
    (gen_step rmin rmax mm pidx s).rooms = s.rooms ∨
      ∃ nr, (s.rooms.any fun o => nr.intersects o) = false ∧
        (gen_step rmin rmax mm pidx s).rooms = s.rooms ++ [nr] := by
  simp only [gen_step]
  split
  · exact Or.inl rfl
  · rename_i hcond
    split
    · split
      · exact Or.inr ⟨_, by simpa using hcond, rfl⟩
      · exact Or.inr ⟨_, by simpa using hcond, rfl⟩
    · exact Or.inr ⟨_, by simpa using hcond, rfl⟩

theorem gen_loop_attempts (rmin rmax mm : Int) (pidx : Nat) :
    ∀ (n : Nat) (s : GenState),
      (gen_loop rmin rmax mm pidx n s).attempts = s.attempts + n := by
  intro n
  induction n with
  | zero => intro s; rfl
  | succ k ih =>
      intro s
      show (gen_loop rmin rmax mm pidx k (gen_step rmin rmax mm pidx s)).attempts = _
      rw [ih, gen_step_attempts]
      omega

theorem gen_loop_rooms_length (rmin rmax mm : Int) (pidx : Nat) :
    ∀ (n : Nat) (s : GenState),
      (gen_loop rmin rmax mm pidx n s).rooms.length ≤ s.rooms.length + n := by
  intro n
  induction n with
  | zero => intro s; simp [gen_loop]
  | succ k ih =>
      intro s
      show (gen_loop rmin rmax mm pidx k (gen_step rmin rmax mm pidx s)).rooms.length ≤ _
      rcases gen_step_rooms_cases rmin rmax mm pidx s with hc | ⟨nr, _, hc⟩
      · have := ih (gen_step rmin rmax mm pidx s)
        rw [hc] at this
        omega
      · have := ih (gen_step rmin rmax mm pidx s)
        rw [hc] at this
        simp only [List.length_append, List.length_singleton] at this
        omega

theorem gen_loop_pairwise (rmin rmax mm : Int) (pidx : Nat) :
    ∀ (n : Nat) (s : GenState),
      List.Pairwise (fun a b => ¬(a.intersects b = true)) s.rooms →
      List.Pairwise (fun a b => ¬(a.intersects b = true))
        (gen_loop rmin rmax mm pidx n s).rooms := by
  intro n
  induction n with
  | zero => intro s h; exact h
  | succ k ih =>
      intro s h
      show List.Pairwise _ (gen_loop rmin rmax mm pidx k (gen_step rmin rmax mm pidx s)).rooms
      apply ih
      rcases gen_step_rooms_cases rmin rmax mm pidx s with hc | ⟨nr, hno, hc⟩
      · rw [hc]; exact h
      · rw [hc]
        rw [List.pairwise_append]
        refine ⟨h, List.pairwise_singleton _ _, ?_⟩
        intro a ha b hb
        have hb' : b = nr := List.mem_singleton.mp hb
        subst hb'
        rw [List.any_eq_false] at hno
        have := hno a ha
        rw [intersects_symm]
        simpa using this

theorem gen_step_player_inv (rmin rmax mm : Int) (s : GenState) (h : player_inv s) :
    player_inv (gen_step rmin rmax mm 0 s) := by
  obtain ⟨p, hp, hcase⟩ := h
  have hlen : 0 < s.dungeon.entities.length := (List.get?_eq_some.mp hp).choose
  cases hr : s.rooms with
  | nil =>
      obtain ⟨nr, rng4, heq⟩ := gen_step_first rmin rmax mm 0 s hr hp
      obtain ⟨added, hadd⟩ := place_entities_append nr
        { s.dungeon with
          tiles := carve_inner s.dungeon.tiles nr
          entities := s.dungeon.entities.set 0
            { p with x := nr.center.1, y := nr.center.2 } } mm rng4
      rw [heq]
      refine ⟨{ p with x := nr.center.1, y := nr.center.2 }, ?_,
        Or.inr ⟨nr, [], rfl, rfl, rfl⟩⟩
      show ((place_entities nr _ mm rng4).1).entities.get? 0 = _
      rw [hadd]
      show ((s.dungeon.entities.set 0 _) ++ added).get? 0 = _
      rw [List.get?_append (by simpa using hlen)]
      exact List.get?_set_eq_of_lt _ hlen
  | cons r0 rest =>
      have hne : s.rooms ≠ [] := by rw [hr]; simp
      obtain ⟨prev, hlast⟩ : ∃ prev, s.rooms.getLast? = some prev := by
        cases hl : s.rooms.getLast? with
        | none => exact absurd (List.getLast?_eq_none_iff.mp hl) hne
        | some prev => exact ⟨prev, rfl⟩
      rcases gen_step_later rmin rmax mm 0 s hlast with ⟨rng', heq⟩ | ⟨nr, rng4, hno, heq⟩
      · rw [heq]
        exact ⟨p, hp, hcase⟩
      · obtain ⟨added, hadd⟩ := place_entities_append nr
          { s.dungeon with
            tiles := carve_points (carve_inner s.dungeon.tiles nr)
              (tunnel_between rng4 prev.center nr.center).1 } mm
          (tunnel_between rng4 prev.center nr.center).2
        rw [heq]
        refine ⟨p, ?_, ?_⟩
        · show ((place_entities nr _ mm _).1).entities.get? 0 = _
          rw [hadd]
          show (s.dungeon.entities ++ added).get? 0 = _
          rw [List.get?_append hlen]
          exact hp
        · right
          rcases hcase with hnil | ⟨r0', rest', hrooms', hx', hy'⟩
          · rw [hnil] at hr
            cases hr
          · exact ⟨r0', rest' ++ [nr], by rw [hrooms']; simp, hx', hy'⟩

theorem gen_loop_player_inv (rmin rmax mm : Int) :
    ∀ (n : Nat) (s : GenState), player_inv s →
      player_inv (gen_loop rmin rmax mm 0 n s) := by
  intro n
  induction n with
  | zero => intro s h; exact h
  | succ k ih =>
      intro s h
      exact ih (gen_step rmin rmax mm 0 s) (gen_step_player_inv rmin rmax mm s h)

theorem movement_checked_agrees (e : Engine) (idx : Nat) (dx dy : Int) :
    movement_perform_checked e idx dx dy = Except.ok (movement_perform e idx dx dy) := by
  unfold movement_perform_checked movement_perform GameMap.tile_get?
  cases h : e.get_entity? idx with
  | none => rfl
  | some ent =>
      simp only []
      by_cases h1 : (e.game_map.in_bounds (ent.x + dx) (ent.y + dy)) = true
      · simp only [h1, Bool.not_true, Bool.false_eq_true, if_false, if_true]
        by_cases h2 : ((e.game_map.tiles (ent.x + dx) (ent.y + dy)).walkable) = true <;>
          by_cases h3 :
            ((e.game_map.get_blocking_entity_at_location (ent.x + dx) (ent.y + dy)).isSome)
              = true <;>
          simp [h2, h3]
      · simp [h1]

end Rogue

/-- C5: the explored grid is monotonically non-decreasing across visibility
refreshes (a cell once true is never reset), and after every refresh the
explored grid is the union of its previous value and the new visible grid,
hence a superset of the visible grid; moreover no action resolution touches
the visible or explored grids, so refreshes are the only mechanism that
changes them. -/
theorem C5_explored_monotone_superset_of_visible :
    ∀ (e : Rogue.Engine) (fov : Int → Int → Bool),
      (∀ x y, e.game_map.explored x y = true →
        (e.update_fov fov).game_map.explored x y = true) ∧
      (∀ x y, (e.update_fov fov).game_map.visible x y = true →
        (e.update_fov fov).game_map.explored x y = true) ∧
      (∀ x y, (e.update_fov fov).game_map.explored x y
        = (e.game_map.explored x y || fov x y)) ∧
      (∀ (a : Rogue.Action) (r : Rogue.Engine), a.perform e = Except.ok r →
        r.game_map.visible = e.game_map.visible ∧
        r.game_map.explored = e.game_map.explored) := by
  intro e fov
  refine ⟨?_, ?_, ?_, ?_⟩
  · intro x y h
    simp [Rogue.Engine.update_fov, h]
  · intro x y h
    simp only [Rogue.Engine.update_fov] at h ⊢
    simp [h]
  · intro x y
    simp [Rogue.Engine.update_fov]
  · intro a r h
    cases a with
    | escape idx => exact absurd h (by simp [Rogue.Action.perform])
    | waiting idx =>
        cases h
        exact ⟨rfl, rfl⟩
    | melee idx dx dy =>
        cases h
        exact Rogue.grids_melee e idx dx dy
    | movement idx dx dy =>
        cases h
        exact Rogue.grids_movement e idx dx dy
    | bump idx dx dy =>
        cases h
        exact Rogue.grids_bump e idx dx dy

/-- C5 witness: refreshing the concrete engine keeps its explored origin
cell explored. -/
theorem C5_witness :
    (Rogue.wEngine.update_fov fun _ _ => true).game_map.explored 0 0 = true :=
  (C5_explored_monotone_superset_of_visible Rogue.wEngine (fun _ _ => true)).1 0 0 (by decide)

/-- C3 counterexample: the claim says the hostile policy yields a Wait
whenever the player is not visible; but with the visibility flag false and
a residual cached path of one step, the decision is a Move along that step,
not a Wait. -/
theorem C3_counterexample :
    (Rogue.hostile_enemy_decide false 0 0 5 5 [(1, 0)] []).1 ≠ Rogue.AIDecision.waiting := by
  decide

/-- C3 (amended): the hostile-pursuer decision yields a MeleeAttack toward
the player when the visibility check passes (the map's visible grid sampled
at the actor's own tile) and Chebyshev distance ≤ 1; when the check passes
and the player is farther, the cached path is replaced by the freshly
computed one and the actor Moves toward its first step — or Waits if the
fresh path is empty; when the check fails, the actor Moves along the first
remaining step of the previously cached path, and Waits only when no cached
step remains. -/
theorem C3_hostile_policy_amended (visible_self : Bool) (sx sy tx ty : Int)
    (stored fresh : List (Int × Int)) :
    (visible_self = true → max (tx - sx).natAbs (ty - sy).natAbs ≤ 1 →
      Rogue.hostile_enemy_decide visible_self sx sy tx ty stored fresh
        = (Rogue.AIDecision.melee (tx - sx) (ty - sy), stored)) ∧
    (visible_self = true → 1 < max (tx - sx).natAbs (ty - sy).natAbs → fresh = [] →
      Rogue.hostile_enemy_decide visible_self sx sy tx ty stored fresh
        = (Rogue.AIDecision.waiting, [])) ∧
    (visible_self = true → 1 < max (tx - sx).natAbs (ty - sy).natAbs →
      ∀ p rest, fresh = p :: rest →
        Rogue.hostile_enemy_decide visible_self sx sy tx ty stored fresh
          = (Rogue.AIDecision.move (p.1 - sx) (p.2 - sy), rest)) ∧
    (visible_self = false → stored = [] →
      Rogue.hostile_enemy_decide visible_self sx sy tx ty stored fresh
        = (Rogue.AIDecision.waiting, [])) ∧
    (visible_self = false → ∀ p rest, stored = p :: rest →
      Rogue.hostile_enemy_decide visible_self sx sy tx ty stored fresh
        = (Rogue.AIDecision.move (p.1 - sx) (p.2 - sy), rest)) := by
  refine ⟨?_, ?_, ?_, ?_, ?_⟩
  · intro hv hd
    unfold Rogue.hostile_enemy_decide
    simp [hv, hd]
  · intro hv hd hfresh
    have hnot : ¬(max (tx - sx).natAbs (ty - sy).natAbs ≤ 1) := Nat.not_le.mpr hd
    unfold Rogue.hostile_enemy_decide
    simp [hv, hnot, hfresh]
  · intro hv hd p rest hfresh
    obtain ⟨p1, p2⟩ := p
    have hnot : ¬(max (tx - sx).natAbs (ty - sy).natAbs ≤ 1) := Nat.not_le.mpr hd
    unfold Rogue.hostile_enemy_decide
    simp [hv, hnot, hfresh]
  · intro hv hstored
    unfold Rogue.hostile_enemy_decide
    simp [hv, hstored]
  · intro hv p rest hstored
    obtain ⟨p1, p2⟩ := p
    unfold Rogue.hostile_enemy_decide
    simp [hv, hstored]

/-- C3 witness: an adjacent visible player yields a melee decision. -/
theorem C3_amended_witness :
    Rogue.hostile_enemy_decide true 0 0 1 0 [] [] = (Rogue.AIDecision.melee 1 0, []) := by
  have h := (C3_hostile_policy_amended true 0 0 1 0 [] []).1 rfl (by decide)
  exact h

/-- C4: resolving BumpDirectional delegates to exactly one of MeleeAttack or
Move — MeleeAttack exactly when the destination holds a blocking entity with
combat stats (Move otherwise), with the delegation target characterized by
the if-condition's lookup. -/
theorem C4_bump_delegates_exactly_one (e : Rogue.Engine) (idx : Nat) (dx dy : Int)
    (ent : Rogue.Entity) (h : e.get_entity? idx = some ent) :
    (Rogue.bump_perform e idx dx dy
      = if (e.game_map.get_actor_at_location (ent.x + dx) (ent.y + dy)).isSome then
          Rogue.melee_perform e idx dx dy
        else Rogue.movement_perform e idx dx dy) ∧
    ((e.game_map.get_actor_at_location (ent.x + dx) (ent.y + dy)).isSome = true ↔
      ∃ t ∈ e.game_map.entities, t.blocks_movement = true ∧ t.fighter.isSome = true ∧
        t.x = ent.x + dx ∧ t.y = ent.y + dy) :=
  ⟨Rogue.bump_eq dx dy h, Rogue.get_actor_isSome_iff e.game_map (ent.x + dx) (ent.y + dy)⟩

/-- C4 witness: bumping toward the blocking fighter-bearing defender at the
destination delegates to the melee attack. -/
theorem C4_witness :
    Rogue.bump_perform Rogue.wCombat 0 1 0 = Rogue.melee_perform Rogue.wCombat 0 1 0 := by
  have h := (C4_bump_delegates_exactly_one Rogue.wCombat 0 1 0 Rogue.wAttacker (by decide)).1
  rw [h, if_pos (by decide)]

/-- C10: resolving a Move action is total — with every tile-grid read routed
through a bounds-checked accessor that fails on an out-of-bounds index, the
resolution never fails (the `in_bounds` guard is evaluated first) and agrees
with the unchecked resolution; and the blocking-entity lookup is total,
returning `none` whenever no blocking entity stands at the queried
location. -/
theorem C10_move_resolution_total (e : Rogue.Engine) (idx : Nat) (dx dy : Int) :
    (Rogue.movement_perform_checked e idx dx dy
      = Except.ok (Rogue.movement_perform e idx dx dy)) ∧
    (∀ x y, (∀ t ∈ e.game_map.entities,
        ¬(t.blocks_movement = true ∧ t.x = x ∧ t.y = y)) →
      e.game_map.get_blocking_entity_at_location x y = none) :=
  ⟨Rogue.movement_checked_agrees e idx dx dy,
    fun x y h => Rogue.get_blocking_none_of_no_blocker e.game_map x y h⟩

/-- C10 witness: on the concrete map, a move toward an out-of-map
destination resolves without error, and the lookup at an empty cell is
`none`. -/
theorem C10_witness :
    Rogue.movement_perform_checked Rogue.wLone 0 90 0
        = Except.ok (Rogue.movement_perform Rogue.wLone 0 90 0) ∧
      Rogue.wLone.game_map.get_blocking_entity_at_location 0 0 = none :=
  ⟨(C10_move_resolution_total Rogue.wLone 0 90 0).1,
    (C10_move_resolution_total Rogue.wLone 0 0 0).2 0 0 (by decide)⟩

/-- C1: when a target actor exists at the attack destination, melee damage
is `max(power − defense, 0)`; if it is positive the defender's stored hp
becomes the old hp minus the damage, clamped into `[0, max_hp]`, and a
"hit" message is appended; if it is zero a "no damage" message is appended
and the engine is otherwise unchanged (in particular the defender's hp);
in both cases the resolution returns normally, so the attack consumes the
turn's action. -/
theorem C1_melee_damage (e : Rogue.Engine) (idx tIdx : Nat) (dx dy : Int)
    (attacker target : Rogue.Entity) (af tf : Rogue.Fighter)
    (h1 : e.get_entity? idx = some attacker)
    (h2 : e.game_map.actor_index_at_location (attacker.x + dx) (attacker.y + dy) = some tIdx)
    (h3 : e.get_entity? tIdx = some target)
    (h4 : attacker.fighter = some af)
    (h5 : target.fighter = some tf) :
    (max (af.power - tf.defense) 0 > 0 →
      (Rogue.melee_perform e idx dx dy).entity_hp? tIdx
          = some (max 0 (min (tf.hp - max (af.power - tf.defense) 0) tf.max_hp)) ∧
        (Rogue.melee_perform e idx dx dy).message_log
          = Rogue.addMessage e.message_log
              (Rogue.strCapitalize attacker.name ++ " attacks " ++ target.name ++ " for "
                ++ toString (max (af.power - tf.defense) 0) ++ " hit points.")
              (if idx == e.playerIdx then Rogue.FgColor.player_atk else Rogue.FgColor.enemy_atk)
              true) ∧
    (max (af.power - tf.defense) 0 = 0 →
      Rogue.melee_perform e idx dx dy
        = { e with
            message_log :=
              Rogue.addMessage e.message_log
                (Rogue.strCapitalize attacker.name ++ " attacks " ++ target.name
                  ++ " but does no damage.")
                (if idx == e.playerIdx then Rogue.FgColor.player_atk
                  else Rogue.FgColor.enemy_atk)
                true }) ∧
    ((Rogue.Action.melee idx dx dy).perform e).isOk = true := by
  refine ⟨?_, ?_, rfl⟩
  · intro hd
    have hdp : af.power - tf.defense > 0 := by
      rcases lt_max_iff.mp hd with hgt | hgt
      · exact hgt
      · exact absurd hgt (lt_irrefl 0)
    have hmax : max (af.power - tf.defense) 0 = af.power - tf.defense :=
      max_eq_left (le_of_lt hdp)
    rw [hmax]
    rw [Rogue.melee_eq dx dy h1 h2 h3 h4 h5, if_pos hdp]
    constructor
    · refine Eq.trans (Rogue.entity_hp?_set_hp ?_ h5 _) rfl
      exact h3
    · rw [Rogue.message_log_set_hp]
  · intro hd
    have hdn : ¬(af.power - tf.defense > 0) := by
      intro hgt
      rw [max_eq_left (le_of_lt hgt)] at hd
      omega
    rw [Rogue.melee_eq dx dy h1 h2 h3 h4 h5, if_neg hdn]

/-- C1 witness: the spec's own scenario — power 5 vs defense 3 on a 10-hp
defender leaves the defender at 8 hp. -/
theorem C1_witness :
    (Rogue.melee_perform Rogue.wCombat 0 1 0).entity_hp? 1 = some 8 := by
  have h := (C1_melee_damage Rogue.wCombat 0 1 1 0 Rogue.wAttacker Rogue.wDefender
      { max_hp := 10, hp := 10, defense := 2, power := 5 }
      { max_hp := 10, hp := 10, defense := 3, power := 4 }
      (by decide) (by decide) (by decide) (by decide) (by decide)).1 (by decide)
  exact h.1

/-- C2: resolving Move(dx,dy) is a silent no-op exactly when the destination
is out of bounds, not walkable, or occupied by a blocking entity; otherwise
it relocates the actor by exactly (dx,dy); resolution never raises; and no
other turn operation relocates an actor — melee preserves every position,
Wait returns the engine unchanged, Escape carries no state, and
BumpDirectional only moves by delegating to Move. -/
theorem C2_move_silent_noop_iff :
    (∀ (e : Rogue.Engine) (idx : Nat) (dx dy : Int) (ent : Rogue.Entity),
      e.get_entity? idx = some ent →
      (e.game_map.in_bounds (ent.x + dx) (ent.y + dy) = false ∨
        (e.game_map.tiles (ent.x + dx) (ent.y + dy)).walkable = false ∨
        (e.game_map.get_blocking_entity_at_location (ent.x + dx) (ent.y + dy)).isSome
          = true) →
      Rogue.movement_perform e idx dx dy = e) ∧
    (∀ (e : Rogue.Engine) (idx : Nat) (dx dy : Int) (ent : Rogue.Entity),
      e.get_entity? idx = some ent →
      e.game_map.in_bounds (ent.x + dx) (ent.y + dy) = true →
      (e.game_map.tiles (ent.x + dx) (ent.y + dy)).walkable = true →
      e.game_map.get_blocking_entity_at_location (ent.x + dx) (ent.y + dy) = none →
      Rogue.movement_perform e idx dx dy
        = e.set_entity idx { ent with x := ent.x + dx, y := ent.y + dy }) ∧
    (∀ (e : Rogue.Engine) (idx : Nat) (dx dy : Int),
      (Rogue.Action.movement idx dx dy).perform e
        = Except.ok (Rogue.movement_perform e idx dx dy)) ∧
    (∀ (e : Rogue.Engine) (idx : Nat) (dx dy : Int),
      (Rogue.melee_perform e idx dx dy).positions = e.positions) ∧
    (∀ (e : Rogue.Engine) (idx : Nat),
      (Rogue.Action.waiting idx).perform e = Except.ok e ∧
        (Rogue.Action.escape idx).perform e = Except.error ()) ∧
    (∀ (e : Rogue.Engine) (idx : Nat) (dx dy : Int) (ent : Rogue.Entity),
      e.get_entity? idx = some ent →
      Rogue.bump_perform e idx dx dy
        = if (e.game_map.get_actor_at_location (ent.x + dx) (ent.y + dy)).isSome then
            Rogue.melee_perform e idx dx dy
          else Rogue.movement_perform e idx dx dy) := by
  refine ⟨?_, ?_, fun _ _ _ _ => rfl, Rogue.positions_melee, fun _ _ => ⟨rfl, rfl⟩, ?_⟩
  · intro e idx dx dy ent h hc
    rw [Rogue.movement_eq dx dy h]
    rcases hc with hc | hc | hc <;> split_ifs <;> try rfl
    all_goals simp_all
  · intro e idx dx dy ent h hb hw hblk
    rw [Rogue.movement_eq dx dy h]
    simp [hb, hw, hblk]
    rfl
  · intro e idx dx dy ent h
    exact Rogue.bump_eq dx dy h

/-- C2 witness: the lone actor at (5,5) moving right on the open floor ends
at (6,5). -/
theorem C2_witness :
    Rogue.movement_perform Rogue.wLone 0 1 0
      = Rogue.wLone.set_entity 0 { Rogue.wAttacker with x := 6, y := 5 } := by
  have h := C2_move_silent_noop_iff.2.1 Rogue.wLone 0 1 0 Rogue.wAttacker
    (by decide) (by decide) (by decide) (by decide)
  exact h

/-- C6: death is a one-way, exactly-once, in-place transition: when the hp
setter drives a fighter with an attached policy to 0 hp, the entity at the
same index becomes the corpse (glyph `%`, non-blocking, policy `none`,
corpse render order, renamed, position retained) with stored hp 0; when the
policy is already `none`, setting hp performs no death transition (only the
clamped hp changes); no action resolution ever reattaches a policy that is
`none`; and a melee attack whose destination holds only non-blocking
entities (corpses) is a no-op. -/
theorem C6_death_one_way :
    (∀ (e : Rogue.Engine) (idx : Nat) (ent : Rogue.Entity) (f : Rogue.Fighter) (v : Int),
      e.get_entity? idx = some ent → ent.fighter = some f → ent.ai.isSome = true →
      v ≤ 0 →
      (e.set_hp idx v).get_entity? idx
          = some (Rogue.Entity.corpse_of { ent with fighter := some (f.set_hp v) }) ∧
        (e.set_hp idx v).entity_hp? idx = some 0 ∧
        (e.set_hp idx v).positions = e.positions) ∧
    (∀ (e : Rogue.Engine) (idx : Nat) (ent : Rogue.Entity) (f : Rogue.Fighter) (v : Int),
      e.get_entity? idx = some ent → ent.fighter = some f → ent.ai = none →
      e.set_hp idx v = e.set_entity idx { ent with fighter := some (f.set_hp v) }) ∧
    (∀ (a : Rogue.Action) (e r : Rogue.Engine) (jdx : Nat) (ent : Rogue.Entity),
      a.perform e = Except.ok r → e.get_entity? jdx = some ent → ent.ai = none →
      ∀ ent', r.get_entity? jdx = some ent' → ent'.ai = none) ∧
    (∀ (e : Rogue.Engine) (idx : Nat) (dx dy : Int) (attacker : Rogue.Entity),
      e.get_entity? idx = some attacker →
      (∀ t ∈ e.game_map.entities,
        t.x = attacker.x + dx ∧ t.y = attacker.y + dy → t.blocks_movement = false) →
      Rogue.melee_perform e idx dx dy = e) := by
  refine ⟨?_, ?_, ?_, ?_⟩
  · intro e idx ent f v h hf hai hv
    have hzero : (f.set_hp v).hp = 0 := by
      rw [Rogue.set_hp_hp_value]
      rcases le_total f.max_hp v with hm | hm <;> omega
    have hc : ((f.set_hp v).hp == 0 && ent.ai.isSome) = true := by
      simp [hzero, hai]
    refine ⟨?_, ?_, Rogue.positions_set_hp e idx v⟩
    · rw [Rogue.set_hp_eq h hf, if_pos hc]
      have h' : (e.set_entity idx { ent with fighter := some (f.set_hp v) }).get_entity? idx
          = some { ent with fighter := some (f.set_hp v) } :=
        Rogue.get_entity?_set_entity_self h _
      rw [Rogue.die_eq h']
      have hlt : idx < e.game_map.entities.length := Rogue.get_entity?_lt h
      simp only [Rogue.Engine.get_entity?, Rogue.Engine.set_entity]
      rw [List.get?_set_eq_of_lt _ (by simpa using hlt)]
    · refine Eq.trans (Rogue.entity_hp?_set_hp h hf v) ?_
      have : max 0 (min v f.max_hp) = 0 := by
        rcases le_total f.max_hp v with hm | hm <;> omega
      rw [this]
  · intro e idx ent f v h hf hai
    rw [Rogue.set_hp_eq h hf]
    have hc : ((f.set_hp v).hp == 0 && ent.ai.isSome) = false := by
      simp [hai]
    rw [hc]
    simp
  · intro a e r jdx ent hp h hai
    exact Rogue.ai_none_perform a e r hp h hai
  · intro e idx dx dy attacker h hcorpse
    have hidx : e.game_map.actor_index_at_location (attacker.x + dx) (attacker.y + dy)
        = none :=
      Rogue.actor_index_none_of_not_blocking e.game_map _ _ hcorpse
    exact Rogue.melee_no_target_index dx dy h hidx

/-- C6 witness: driving the 1-hp defender's hp to −1 converts it in place
into the corpse entity. -/
theorem C6_witness :
    (Rogue.wCombatDying.set_hp 1 (-1)).get_entity? 1
      = some (Rogue.Entity.corpse_of
          { Rogue.wDying with
            fighter := some (Rogue.Fighter.set_hp
              { max_hp := 10, hp := 1, defense := 3, power := 4 } (-1)) }) :=
  ((C6_death_one_way).1 Rogue.wCombatDying 1 Rogue.wDying
    { max_hp := 10, hp := 1, defense := 3, power := 4 } (-1)
    (by decide) (by decide) (by decide) (by decide)).1

/-- C7: dungeon generation makes exactly `max_rooms` placement attempts
(rejected candidates spend their attempt without a retry), the accepted
rooms' bounding boxes are pairwise non-overlapping under the edge-inclusive
intersection test, and the final room count is at most `max_rooms`. -/
theorem C7_generation_attempts_and_no_overlap
    (max_rooms : Nat) (rmin rmax w h mm : Int) (player : Rogue.Entity) (rng : Rogue.Rng) :
    (Rogue.generate_dungeon max_rooms rmin rmax w h mm player rng).attempts = max_rooms ∧
      List.Pairwise (fun a b : Rogue.RectangularRoom => ¬(a.intersects b = true))
        (Rogue.generate_dungeon max_rooms rmin rmax w h mm player rng).rooms ∧
      (Rogue.generate_dungeon max_rooms rmin rmax w h mm player rng).rooms.length
        ≤ max_rooms := by
  unfold Rogue.generate_dungeon
  refine ⟨?_, ?_, ?_⟩
  · rw [Rogue.gen_loop_attempts]
    simp
  · exact Rogue.gen_loop_pairwise rmin rmax mm 0 max_rooms _ List.Pairwise.nil
  · have := Rogue.gen_loop_rooms_length rmin rmax mm 0 max_rooms
      { dungeon := Rogue.GameMap.init w h [player], rooms := [], rng := rng, attempts := 0 }
    simpa using this

/-- C8: the first accepted room receives the player at its center (and the
player stays there through later iterations); a corridor produced by
`tunnel_between` is exactly the union of the two straight axis-aligned
segments joining the endpoints through the coin-chosen corner
(horizontal-then-vertical on a draw below 50 of 100, else
vertical-then-horizontal); every later accepted room is either rejected
wholesale or carved together with such a corridor from the immediately
previous accepted room's center to its own; and with max_rooms = 1 exactly
the player's starting room is carved, zero corridor tiles, player at its
center. -/
theorem C8_first_room_player_and_l_corridors :
    (∀ (max_rooms : Nat) (rmin rmax w h mm : Int) (player : Rogue.Entity)
        (rng : Rogue.Rng) (r0 : Rogue.RectangularRoom) (rest : List Rogue.RectangularRoom),
      (Rogue.generate_dungeon max_rooms rmin rmax w h mm player rng).rooms = r0 :: rest →
      ∃ p, (Rogue.generate_dungeon max_rooms rmin rmax w h mm player
            rng).dungeon.entities.get? 0 = some p ∧
        p.x = r0.center.1 ∧ p.y = r0.center.2) ∧
    (∀ (rng : Rogue.Rng) (c1 c2 p : Int × Int),
      ((Rogue.rand_percent rng).1 < 50 →
        (p ∈ (Rogue.tunnel_between rng c1 c2).1 ↔
          (p.2 = c1.2 ∧ Rogue.seg_between c1.1 c2.1 p.1) ∨
            (p.1 = c2.1 ∧ Rogue.seg_between c1.2 c2.2 p.2))) ∧
      (¬((Rogue.rand_percent rng).1 < 50) →
        (p ∈ (Rogue.tunnel_between rng c1 c2).1 ↔
          (p.1 = c1.1 ∧ Rogue.seg_between c1.2 c2.2 p.2) ∨
            (p.2 = c2.2 ∧ Rogue.seg_between c1.1 c2.1 p.1)))) ∧
    (∀ (pts : List (Int × Int)) (tiles : Int → Int → Rogue.Tile) (x y : Int),
      Rogue.carve_points tiles pts x y
        = if (x, y) ∈ pts then Rogue.floorTile else tiles x y) ∧
    (∀ (rmin rmax mm : Int) (pidx : Nat) (s : Rogue.GenState)
        (prev : Rogue.RectangularRoom), s.rooms.getLast? = some prev →
      (∃ rng', Rogue.gen_step rmin rmax mm pidx s
          = { s with rng := rng', attempts := s.attempts + 1 }) ∨
      (∃ nr rng4, (s.rooms.any fun o => nr.intersects o) = false ∧
        Rogue.gen_step rmin rmax mm pidx s =
          { dungeon := (Rogue.place_entities nr
              { s.dungeon with
                tiles := Rogue.carve_points (Rogue.carve_inner s.dungeon.tiles nr)
                  (Rogue.tunnel_between rng4 prev.center nr.center).1 } mm
              (Rogue.tunnel_between rng4 prev.center nr.center).2).1
            rooms := s.rooms ++ [nr]
            rng := (Rogue.place_entities nr
              { s.dungeon with
                tiles := Rogue.carve_points (Rogue.carve_inner s.dungeon.tiles nr)
                  (Rogue.tunnel_between rng4 prev.center nr.center).1 } mm
              (Rogue.tunnel_between rng4 prev.center nr.center).2).2
            attempts := s.attempts + 1 })) ∧
    (∀ (rmin rmax w h mm : Int) (player : Rogue.Entity) (rng : Rogue.Rng),
      ∃ nr added,
        (Rogue.generate_dungeon 1 rmin rmax w h mm player rng).rooms = [nr] ∧
          (∀ x y, (Rogue.generate_dungeon 1 rmin rmax w h mm player rng).dungeon.tiles x y
            = if nr.inner_contains x y then Rogue.floorTile else Rogue.wallTile) ∧
          (Rogue.generate_dungeon 1 rmin rmax w h mm player rng).dungeon.entities
            = { player with x := nr.center.1, y := nr.center.2 } :: added) := by
  refine ⟨?_, ?_, fun pts tiles x y => Rogue.carve_points_at pts tiles x y,
    fun rmin rmax mm pidx s prev hlast => Rogue.gen_step_later rmin rmax mm pidx s hlast, ?_⟩
  · intro max_rooms rmin rmax w h mm player rng r0 rest hrooms
    have hinv : Rogue.player_inv
        (Rogue.generate_dungeon max_rooms rmin rmax w h mm player rng) := by
      unfold Rogue.generate_dungeon
      exact Rogue.gen_loop_player_inv rmin rmax mm max_rooms _ ⟨player, rfl, Or.inl rfl⟩
    obtain ⟨p, hp, hcase⟩ := hinv
    rcases hcase with hnil | ⟨r0', rest', hrooms', hx', hy'⟩
    · rw [hnil] at hrooms
      cases hrooms
    · rw [hrooms'] at hrooms
      cases hrooms
      exact ⟨p, hp, hx', hy'⟩
  · exact fun rng c1 c2 p => Rogue.tunnel_between_mem rng c1 c2 p
  · intro rmin rmax w h mm player rng
    have hgen : Rogue.generate_dungeon 1 rmin rmax w h mm player rng
        = Rogue.gen_step rmin rmax mm 0
          { dungeon := Rogue.GameMap.init w h [player], rooms := [], rng := rng
            attempts := 0 } := rfl
    obtain ⟨nr, rng4, heq⟩ := Rogue.gen_step_first rmin rmax mm 0
      { dungeon := Rogue.GameMap.init w h [player], rooms := [], rng := rng, attempts := 0 }
      rfl (p := player) rfl
    obtain ⟨added, hadd⟩ := Rogue.place_entities_append nr
      { Rogue.GameMap.init w h [player] with
        tiles := Rogue.carve_inner (Rogue.GameMap.init w h [player]).tiles nr
        entities := (Rogue.GameMap.init w h [player]).entities.set 0
          { player with x := nr.center.1, y := nr.center.2 } } mm rng4
    refine ⟨nr, added, ?_, ?_, ?_⟩
    · rw [hgen, heq]
    · intro x y
      rw [hgen, heq]
      show ((Rogue.place_entities nr _ mm rng4).1).tiles x y = _
      rw [hadd]
      rfl
    · rw [hgen, heq]
      show ((Rogue.place_entities nr _ mm rng4).1).entities = _
      rw [hadd]
      rfl

/-- C8 witness: running the single-room generator on the empty random
stream (every draw defaults to its low bound) puts the player at the center
(1,1) of the one accepted room. -/
theorem C8_witness :
    ∃ p, (Rogue.generate_dungeon 1 3 3 10 10 0
        Rogue.playerFactory []).dungeon.entities.get? 0 = some p ∧
      p.x = 1 ∧ p.y = 1 := by
  have h := C8_first_room_player_and_l_corridors.1 1 3 3 10 10 0 Rogue.playerFactory []
    { x1 := 0, y1 := 0, x2 := 3, y2 := 3 } [] (by decide)
  exact h

/-- C9 counterexample: with one interior cell already occupied by the
player, a drawn monster count of 1 yields zero placed monsters: the drawn
number is not the number of placed hostiles. -/
theorem C9_counterexample :
    (Rogue.randint [1] 0 1).1 = 1 ∧
      (Rogue.place_entities Rogue.wRoom Rogue.wDungeon 1 [1]).1.entities.length
        ≠ Rogue.wDungeon.entities.length + 1 := by
  constructor
  · decide
  · decide

/-- C9 (amended): for every room the generator draws
`n = randint(0, max_monsters_per_room)` and makes `n` placement attempts;
the entities actually added number at most `n`; each one sits on a cell of
the room's interior that was unoccupied at its placement time, and each is
(per the 80-of-100 versus 20-of-100 coin) a spawn of one of the two factory
archetypes — which in this source differ in glyph, color and name and carry
no combat stats or decision policy. -/
theorem C9_monster_placement_amended (room : Rogue.RectangularRoom)
    (dungeon : Rogue.GameMap) (mm : Int) (rng : Rogue.Rng)
    (hx : room.x1 + 1 ≤ room.x2 - 1) (hy : room.y1 + 1 ≤ room.y2 - 1) :
    ∃ added,
      (Rogue.place_entities room dungeon mm rng).1
          = { dungeon with entities := dungeon.entities ++ added } ∧
        added.length ≤ (Rogue.randint rng 0 mm).1.toNat ∧
        (∀ m ∈ added, room.inner_contains m.x m.y = true ∧
          (m = Rogue.orc.spawn m.x m.y ∨ m = Rogue.troll.spawn m.x m.y)) ∧
        Rogue.ok_placement dungeon.entities added := by
  unfold Rogue.place_entities
  exact Rogue.place_entities_loop_spec room hx hy _ dungeon _

/-- C9 witness: on an empty dungeon and a 3x3 room, the draw stream
[1,0,0,0] places at most one orc on an interior cell. -/
theorem C9_witness :
    ∃ added,
      (Rogue.place_entities Rogue.wRoom3 Rogue.wDungeonEmpty 1 [1, 0, 0, 0]).1
          = { Rogue.wDungeonEmpty with
              entities := Rogue.wDungeonEmpty.entities ++ added } ∧
        added.length ≤ (Rogue.randint [1, 0, 0, 0] 0 1).1.toNat ∧
        (∀ m ∈ added, Rogue.wRoom3.inner_contains m.x m.y = true ∧
          (m = Rogue.orc.spawn m.x m.y ∨ m = Rogue.troll.spawn m.x m.y)) ∧
        Rogue.ok_placement Rogue.wDungeonEmpty.entities added :=
  C9_monster_placement_amended Rogue.wRoom3 Rogue.wDungeonEmpty 1 [1, 0, 0, 0]
    (by decide) (by decide)
